import Mathlib

/-!
The bitcoind JSON-RPC client: a shallow embedding.

A shallow embedding of the Go package `bitcoind` (`rpc.go`, `bitcoind.go`).

Conventions of the embedding

* A Go `string` or `[]byte` is a `GoString`, a list of Unicode characters: the
  texts are taken to be valid UTF-8, and nothing in the package indexes into
  the bytes of a character.
* A Go `error` is an `Option GoError`; `none` is the `nil` error.
* Go's `int`, `int64` are `Int`; the only place where their width matters is
  the range check of the JSON decoder (`parseInt64`).
* The standard library (`encoding/json`, `strconv`, `fmt`, `net/http`, `io`,
  `time`) is not part of the package.  `fmt.Sprintf`, `json.Unmarshal`,
  `json.Encoder.Encode` and `strconv.ParseFloat` are modelled by executable
  definitions written from their documented behaviour.  Of `net/http` the model
  has what a request of the package meets on its way out: the `Authorization`
  header that `SetBasicAuth` writes (base64 of the UTF-8 bytes of
  `username:password`) and how a receiver reads it, the credentials that the
  transport takes from the userinfo of the URL, and the redirects that
  `http.DefaultClient` follows.  The answers of the network, the clock and the
  errors of URL parsing are parameters (`Env`).
-/

namespace bitcoind

/-- A Go string, or byte slice holding text. -/
abbrev GoString := List Char

/-! `fmt.Sprintf` verbs used by the package -/

/-- The character of one decimal digit. -/
def digitChar (d : Nat) : Char :=
  match d with
  | 0 => '0' | 1 => '1' | 2 => '2' | 3 => '3' | 4 => '4'
  | 5 => '5' | 6 => '6' | 7 => '7' | 8 => '8' | _ => '9'

/-- The value of a decimal digit character. -/
def digitVal (c : Char) : Nat := c.toNat - 48

/-- The decimal digits of `n`, least significant first. -/
def digitsRev : Nat → Nat → List Char
  | 0, n => [digitChar n]
  | fuel + 1, n =>
    if n < 10 then [digitChar n] else digitChar (n % 10) :: digitsRev fuel (n / 10)

/-- The verb `%d` on a natural number. -/
def formatNat (n : Nat) : GoString := (digitsRev n n).reverse

/-- The verb `%d` on an integer: decimal digits, with a leading `-` when negative. -/
def formatInt : Int → GoString
  | Int.ofNat n => formatNat n
  | Int.negSucc n => '-' :: formatNat (n + 1)

/-- The number that decimal digits denote, least significant first. -/
def valRev : List Char → Nat
  | [] => 0
  | c :: cs => digitVal c + 10 * valRev cs

/-! rpc.go: data model -/

/-- The type `RPCErrorCode`: a Go `int`. -/
abbrev RPCErrorCode := Int

/-- The struct `RPCError`. -/
structure RPCError where
  Code : RPCErrorCode
  Message : GoString
  deriving DecidableEq, Repr

/-- The method `RPCError.Error`: `fmt.Sprintf("%d: %s", e.Code, e.Message)`. -/
def RPCError.Error (e : RPCError) : GoString :=
  formatInt e.Code ++ ": ".toList ++ e.Message

/-! Errors -/

/-- The values of Go's `error` interface that the package can return.  The
errors made by the standard library keep the part of their content that
callers can observe. -/
inductive GoError where
  /-- An `RPCError` of the response envelope, returned as an error. -/
  | rpc (e : RPCError)
  /-- A `*json.SyntaxError`: the text is not valid JSON. -/
  | jsonSyntax
  /-- A `*json.UnmarshalTypeError`: the JSON value `value` does not fit the Go type `type`. -/
  | jsonUnmarshalType (value : GoString) (type : GoString)
  /-- A `*json.UnsupportedValueError` of the encoder (a NaN or infinite float). -/
  | jsonUnsupportedValue (value : GoString)
  /-- A `*strconv.NumError` with `Err = ErrSyntax`, made by `ParseFloat` on `input`. -/
  | numSyntax (input : GoString)
  /-- A `*strconv.NumError` with `Err = ErrRange`, made by `ParseFloat` on `input`. -/
  | numRange (input : GoString)
  /-- The `*url.Error` of `Client.Do` for `stopped after 10 redirects`. -/
  | redirectLimit
  /-- An error made outside the package and outside the models above
  (`net/http`, `net/url`, `io`, an absent decoder), identified by its text. -/
  | other (text : GoString)
  deriving DecidableEq, Repr

/-! `encoding/json`: reading a text

`json.Unmarshal` first checks that the whole text is one valid JSON value
surrounded by optional white space (`checkValid`), and only then stores the
value into its target.  `parseJSON` is that check, and it returns the value
read.  The functions recurse on a fuel argument; `parseJSON` gives them more
fuel than the text has characters. The scanner's limit of 10000 nested values
is not part of the model. -/

/-- A JSON value as read from a text.  A number keeps its literal; a string is
unquoted; every member of an object keeps, between its key and its value, the
text of the value exactly as written (what a `json.RawMessage` receives). -/
inductive JVal where
  | null
  | bool (b : Bool)
  | num (lit : GoString)
  | str (s : GoString)
  | arr (elems : List JVal)
  | obj (members : List (GoString × GoString × JVal))

/-- JSON white space. -/
def isSpace (c : Char) : Bool :=
  c == ' ' || c == '\t' || c == '\r' || c == '\n'

/-- Drop leading white space. -/
def skipSpace : GoString → GoString
  | [] => []
  | c :: cs => if isSpace c then skipSpace cs else c :: cs

/-- Decimal digit characters. -/
def isDigit (c : Char) : Bool := 48 ≤ c.toNat && c.toNat ≤ 57

/-- The value of a hexadecimal digit. -/
def hexVal (c : Char) : Option Nat :=
  let n := c.toNat
  if 48 ≤ n && n ≤ 57 then some (n - 48)
  else if 97 ≤ n && n ≤ 102 then some (n - 87)
  else if 65 ≤ n && n ≤ 70 then some (n - 55)
  else none

/-- The function `getu4` of `encoding/json`: the code unit of a leading
`\uXXXX` escape, and the text after it. -/
def getu4 : GoString → Option (Nat × GoString)
  | '\\' :: 'u' :: a :: b :: c :: d :: rest =>
    match hexVal a, hexVal b, hexVal c, hexVal d with
    | some x, some y, some z, some w => some (((x * 16 + y) * 16 + z) * 16 + w, rest)
    | _, _, _, _ => none
  | _ => none

/-- The rune `unicode.ReplacementChar`. -/
def replacementChar : Char := Char.ofNat 0xFFFD

/-- Read a string after its opening quote: the unquoted content (escapes
replaced, a surrogate pair joined, a lone surrogate replaced by U+FFFD) and the
text after the closing quote.  Control characters and unknown escapes are
syntax errors. -/
def scanString : Nat → GoString → GoString → Option (GoString × GoString)
  | 0, _, _ => none
  | fuel + 1, acc, input =>
    match input with
    | [] => none
    | '"' :: rest => some (acc.reverse, rest)
    | '\\' :: 'u' :: _ =>
      match getu4 input with
      | none => none
      | some (rr, r1) =>
        if 0xD800 ≤ rr && rr < 0xE000 then
          match getu4 r1 with
          | some (rr1, r2) =>
            if rr < 0xDC00 && 0xDC00 ≤ rr1 && rr1 < 0xE000 then
              scanString fuel
                (Char.ofNat ((rr - 0xD800) * 1024 + (rr1 - 0xDC00) + 0x10000) :: acc) r2
            else scanString fuel (replacementChar :: acc) r1
          | none => scanString fuel (replacementChar :: acc) r1
        else scanString fuel (Char.ofNat rr :: acc) r1
    | '\\' :: c :: rest =>
      if c = '"' then scanString fuel ('"' :: acc) rest
      else if c = '\\' then scanString fuel ('\\' :: acc) rest
      else if c = '/' then scanString fuel ('/' :: acc) rest
      else if c = 'b' then scanString fuel (Char.ofNat 8 :: acc) rest
      else if c = 'f' then scanString fuel (Char.ofNat 12 :: acc) rest
      else if c = 'n' then scanString fuel ('\n' :: acc) rest
      else if c = 'r' then scanString fuel ('\r' :: acc) rest
      else if c = 't' then scanString fuel ('\t' :: acc) rest
      else none
    | c :: rest =>
      if c.toNat < 32 || c = '\\' then none else scanString fuel (c :: acc) rest

/-- The longest prefix of digits, and the rest. -/
def spanDigits : GoString → GoString × GoString
  | [] => ([], [])
  | c :: cs =>
    if isDigit c then ((spanDigits cs).1.cons c, (spanDigits cs).2) else ([], c :: cs)

/-- The integer part of a JSON number: `0`, or digits not starting with `0`. -/
def scanInt (s : GoString) : Option (GoString × GoString) :=
  match s with
  | '0' :: rest => some (['0'], rest)
  | _ =>
    match spanDigits s with
    | ([], _) => none
    | (ds, rest) => some (ds, rest)

/-- The optional fraction of a JSON number: `.` and at least one digit. -/
def scanFrac (s : GoString) : Option (GoString × GoString) :=
  match s with
  | '.' :: rest =>
    match spanDigits rest with
    | ([], _) => none
    | (ds, rest2) => some ('.' :: ds, rest2)
  | _ => some ([], s)

/-- The optional exponent of a JSON number: `e` or `E`, an optional sign, and
at least one digit. -/
def scanExp (s : GoString) : Option (GoString × GoString) :=
  match s with
  | c :: rest =>
    if c = 'e' || c = 'E' then
      match rest with
      | sg :: rest2 =>
        if sg = '+' || sg = '-' then
          match spanDigits rest2 with
          | ([], _) => none
          | (ds, rest3) => some (c :: sg :: ds, rest3)
        else
          match spanDigits rest with
          | ([], _) => none
          | (ds, rest3) => some (c :: ds, rest3)
      | [] => none
    else some ([], s)
  | [] => some ([], s)

/-- A JSON number literal at the head of the text, and the text after it. -/
def scanNumber (s : GoString) : Option (GoString × GoString) :=
  let (sign, s1) := match s with
    | '-' :: rest => (['-'], rest)
    | _ => ([], s)
  match scanInt s1 with
  | none => none
  | some (i, s2) =>
    match scanFrac s2 with
    | none => none
    | some (f, s3) =>
      match scanExp s3 with
      | none => none
      | some (e, s4) => some (sign ++ i ++ f ++ e, s4)

mutual
/-- Read one JSON value at the head of the text (no leading white space). -/
def parseValue : Nat → GoString → Option (JVal × GoString)
  | 0, _ => none
  | fuel + 1, input =>
    match input with
    | '{' :: rest =>
      match skipSpace rest with
      | '}' :: rest2 => some (JVal.obj [], rest2)
      | rest2 =>
        match parseMembers fuel rest2 with
        | some (ms, rest3) => some (JVal.obj ms, rest3)
        | none => none
    | '[' :: rest =>
      match skipSpace rest with
      | ']' :: rest2 => some (JVal.arr [], rest2)
      | rest2 =>
        match parseElems fuel rest2 with
        | some (vs, rest3) => some (JVal.arr vs, rest3)
        | none => none
    | '"' :: rest =>
      match scanString (rest.length + 1) [] rest with
      | some (s, rest2) => some (JVal.str s, rest2)
      | none => none
    | 't' :: 'r' :: 'u' :: 'e' :: rest => some (JVal.bool true, rest)
    | 'f' :: 'a' :: 'l' :: 's' :: 'e' :: rest => some (JVal.bool false, rest)
    | 'n' :: 'u' :: 'l' :: 'l' :: rest => some (JVal.null, rest)
    | _ =>
      match scanNumber input with
      | some (lit, rest) => some (JVal.num lit, rest)
      | none => none
/-- Read the members of an object, up to and including the closing brace. -/
def parseMembers : Nat → GoString → Option (List (GoString × GoString × JVal) × GoString)
  | 0, _ => none
  | fuel + 1, input =>
    match input with
    | '"' :: rest =>
      match scanString (rest.length + 1) [] rest with
      | none => none
      | some (key, r1) =>
        match skipSpace r1 with
        | ':' :: r2 =>
          match parseValue fuel (skipSpace r2) with
          | none => none
          | some (v, r4) =>
            let raw := (skipSpace r2).take ((skipSpace r2).length - r4.length)
            match skipSpace r4 with
            | ',' :: r5 =>
              match parseMembers fuel (skipSpace r5) with
              | some (ms, r6) => some ((key, raw, v) :: ms, r6)
              | none => none
            | '}' :: r5 => some ([(key, raw, v)], r5)
            | _ => none
        | _ => none
    | _ => none
/-- Read the elements of an array, up to and including the closing bracket. -/
def parseElems : Nat → GoString → Option (List JVal × GoString)
  | 0, _ => none
  | fuel + 1, input =>
    match parseValue fuel input with
    | none => none
    | some (v, r1) =>
      match skipSpace r1 with
      | ',' :: r2 =>
        match parseElems fuel (skipSpace r2) with
        | some (vs, r3) => some (v :: vs, r3)
        | none => none
      | ']' :: r2 => some ([v], r2)
      | _ => none
end

/-- The validity check of `json.Unmarshal` (`checkValid`, the same test as
`json.Valid`), returning the value read: `none` when the text is not exactly
one JSON value surrounded by optional white space. -/
def parseJSON (data : GoString) : Option JVal :=
  match parseValue (data.length + 1) (skipSpace data) with
  | some (v, rest) => if skipSpace rest = [] then some v else none
  | none => none

/-! `encoding/json`: storing a value into a Go target

The decoder stores member after member.  A value of the wrong kind leaves its
target as it is, the first such error is kept (`saveError`) and returned at the
end, and the members that follow are still stored. -/

/-- The word by which an `UnmarshalTypeError` names the JSON value. -/
def JVal.describe : JVal → GoString
  | JVal.null => "null".toList
  | JVal.bool _ => "bool".toList
  | JVal.num _ => "number".toList
  | JVal.str _ => "string".toList
  | JVal.arr _ => "array".toList
  | JVal.obj _ => "object".toList

/-- The call `strconv.ParseInt(s, 10, 64)`: an optional sign and decimal digits,
within the range of `int64`; `none` stands for its error. -/
def parseInt64 (s : GoString) : Option Int :=
  let (neg, ds) := match s with
    | '-' :: r => (true, r)
    | '+' :: r => (false, r)
    | _ => (false, s)
  if ds = [] ∨ ds.all isDigit = false then none
  else
    let n : Nat := ds.foldl (fun a c => 10 * a + digitVal c) 0
    if neg then (if n ≤ 2 ^ 63 then some (-(n : Int)) else none)
    else (if n < 2 ^ 63 then some (n : Int) else none)

/-- Case folding of member names: ASCII letters to upper case; the two
characters outside ASCII that fold to an ASCII letter are U+017F (to `S`) and
U+212A (to `K`). -/
def foldRune (c : Char) : Char :=
  let n := c.toNat
  if 97 ≤ n && n ≤ 122 then Char.ofNat (n - 32)
  else if n = 0x17F then 'S'
  else if n = 0x212A then 'K'
  else c

/-- The folded form of a member name. -/
def foldName (s : GoString) : GoString := s.map foldRune

/-- The struct field that a member key names: the field with exactly that
name, else the first field with the same folded name. -/
def findField (names : List GoString) (key : GoString) : Option GoString :=
  match names.find? (fun n => n = key) with
  | some n => some n
  | none => names.find? (fun n => foldName n = foldName key)

/-- Keep the first error (`decodeState.saveError`). -/
def saveError (saved new : Option GoError) : Option GoError :=
  match saved with
  | some e => some e
  | none => new

/-- Store into a target of integer kind whose Go type is named `ty`
(`int` is taken to be 64 bits wide). -/
def storeInt (ty : GoString) (v : JVal) (cur : Int) : Int × Option GoError :=
  match v with
  | JVal.null => (cur, none)
  | JVal.num lit =>
    match parseInt64 lit with
    | some n => (n, none)
    | none => (cur, some (GoError.jsonUnmarshalType ("number ".toList ++ lit) ty))
  | w => (cur, some (GoError.jsonUnmarshalType w.describe ty))

/-- Store into a target of type `string`. -/
def storeString (v : JVal) (cur : GoString) : GoString × Option GoError :=
  match v with
  | JVal.null => (cur, none)
  | JVal.str s => (s, none)
  | w => (cur, some (GoError.jsonUnmarshalType w.describe "string".toList))

/-- Store into a target of type `bool`. -/
def storeBool (v : JVal) (cur : Bool) : Bool × Option GoError :=
  match v with
  | JVal.null => (cur, none)
  | JVal.bool b => (b, none)
  | w => (cur, some (GoError.jsonUnmarshalType w.describe "bool".toList))

/-- The zero value of `RPCError`. -/
def RPCError.zero : RPCError := ⟨0, []⟩

/-- Store the members of an object into an `RPCError` (fields `code`, `message`). -/
def storeRPCErrorFields :
    List (GoString × GoString × JVal) → RPCError → Option GoError → RPCError × Option GoError
  | [], e, saved => (e, saved)
  | (key, _, v) :: ms, e, saved =>
    let f := findField ["code".toList, "message".toList] key
    if f = some "code".toList then
      storeRPCErrorFields ms { e with Code := (storeInt "bitcoind.RPCErrorCode".toList v e.Code).1 }
        (saveError saved (storeInt "bitcoind.RPCErrorCode".toList v e.Code).2)
    else if f = some "message".toList then
      storeRPCErrorFields ms { e with Message := (storeString v e.Message).1 }
        (saveError saved (storeString v e.Message).2)
    else storeRPCErrorFields ms e saved

/-- Store into a target of type `*RPCError`: `null` makes the pointer nil; any
other value allocates the struct when the pointer is nil, and an object is
then stored field by field. -/
def storeRPCErrorPtr (v : JVal) (cur : Option RPCError) (saved : Option GoError) :
    Option RPCError × Option GoError :=
  match v with
  | JVal.null => (none, saved)
  | JVal.obj ms =>
    (some (storeRPCErrorFields ms (cur.getD RPCError.zero) saved).1,
      (storeRPCErrorFields ms (cur.getD RPCError.zero) saved).2)
  | w =>
    (some (cur.getD RPCError.zero),
      saveError saved (some (GoError.jsonUnmarshalType w.describe "bitcoind.RPCError".toList)))

/-- The struct `rpcResponse`; `Result` is a `json.RawMessage`. -/
structure rpcResponse where
  Id : Int
  Result : GoString
  Err : Option RPCError
  deriving DecidableEq, Repr

/-- The zero value of `rpcResponse`. -/
def rpcResponse.zero : rpcResponse := ⟨0, [], none⟩

/-- Store the members of an object into an `rpcResponse` (fields `id`,
`result`, `error`).  `result` receives the text of the member's value. -/
def storeResponseFields :
    List (GoString × GoString × JVal) → rpcResponse → Option GoError →
      rpcResponse × Option GoError
  | [], rr, saved => (rr, saved)
  | (key, raw, v) :: ms, rr, saved =>
    let f := findField ["id".toList, "result".toList, "error".toList] key
    if f = some "id".toList then
      storeResponseFields ms { rr with Id := (storeInt "int64".toList v rr.Id).1 }
        (saveError saved (storeInt "int64".toList v rr.Id).2)
    else if f = some "result".toList then
      storeResponseFields ms { rr with Result := raw } saved
    else if f = some "error".toList then
      storeResponseFields ms { rr with Err := (storeRPCErrorPtr v rr.Err saved).1 }
        (storeRPCErrorPtr v rr.Err saved).2
    else storeResponseFields ms rr saved

/-- Store a JSON value into an `rpcResponse`. -/
def storeResponse (v : JVal) (rr : rpcResponse) : rpcResponse × Option GoError :=
  match v with
  | JVal.null => (rr, none)
  | JVal.obj ms => storeResponseFields ms rr none
  | w => (rr, some (GoError.jsonUnmarshalType w.describe "bitcoind.rpcResponse".toList))

/-- The call `json.Unmarshal(data, &rr)` on an `rpcResponse`: the new content of
`rr` and the error. -/
def unmarshalResponse (data : GoString) (rr : rpcResponse) : rpcResponse × Option GoError :=
  match parseJSON data with
  | none => (rr, some GoError.jsonSyntax)
  | some v => storeResponse v rr

/-- The call `json.Unmarshal(data, &s)` on a `string`. -/
def unmarshalString (data : GoString) (s : GoString) : GoString × Option GoError :=
  match parseJSON data with
  | none => (s, some GoError.jsonSyntax)
  | some v => storeString v s

/-! `float64` and `strconv.ParseFloat` -/

/-- The values of Go's `float64` (IEEE 754 binary64).  `finite neg mant exp` is
the number `(-1)^neg * mant * 2^exp` in the form the format stores it:
`mant < 2^53`, `-1074 ≤ exp ≤ 971`, and `2^52 ≤ mant` unless `exp = -1074`. -/
inductive Float64 where
  | finite (neg : Bool) (mant : Nat) (exp : Int)
  | inf (neg : Bool)
  | nan
  deriving DecidableEq, Repr

/-- The zero value of `float64`, `+0`. -/
def Float64.zero : Float64 := Float64.finite false 0 (-1074)

/-- The rational number a finite `float64` stands for. -/
def Float64.toRat : Float64 → Option ℚ
  | Float64.finite neg mant exp => some ((if neg then -1 else 1) * (mant : ℚ) * (2 : ℚ) ^ exp)
  | _ => none

/-- The number of halvings that bring `n` below 2, at most `fuel` of them. -/
def log2Fuel : Nat → Nat → Nat
  | 0, _ => 0
  | fuel + 1, n => if n < 2 then 0 else log2Fuel fuel (n / 2) + 1

/-- The integer part of the binary logarithm of `n` (and `0` for `n = 0`). -/
def floorLog2 (n : Nat) : Nat := log2Fuel n n

/-- Whether `2^l ≤ num / den`. -/
def scaleGe (num den : Nat) (l : Int) : Bool :=
  if 0 ≤ l then decide (den * 2 ^ l.toNat ≤ num) else decide (den ≤ num * 2 ^ (-l).toNat)

/-- The integer part of the binary logarithm of `num / den` (both positive):
the difference of the logarithms of `num` and `den`, or one less. -/
def binade (num den : Nat) : Int :=
  if scaleGe num den ((floorLog2 num : Int) - (floorLog2 den : Int))
  then (floorLog2 num : Int) - (floorLog2 den : Int)
  else (floorLog2 num : Int) - (floorLog2 den : Int) - 1

/-- The integer nearest to `n / d`, ties to the even one. -/
def roundQuot (n d : Nat) : Nat :=
  if d < 2 * (n % d) ∨ (2 * (n % d) = d ∧ n / d % 2 = 1) then n / d + 1 else n / d

/-- The `float64` of significand `m ≤ 2^53` and exponent `e`, and whether it is
out of range: a significand rounded up to `2^53` is renormalised, and an
exponent above 971 gives an infinity. -/
def packFloat64 (neg : Bool) (m : Nat) (e : Int) : Float64 × Bool :=
  if 971 < (if m = 2 ^ 53 then e + 1 else e) then (Float64.inf neg, true)
  else (Float64.finite neg (if m = 2 ^ 53 then 2 ^ 52 else m) (if m = 2 ^ 53 then e + 1 else e),
    false)

/-- The `float64` nearest to `(-1)^neg * num / den` (`den` positive), ties to
the even significand, and whether the number is out of range (it rounds to an
infinity).  The exponent `e` is the one at which the significand has 53 bits,
and not less than -1074; a number too small rounds to a subnormal or to zero,
which is not an error. -/
def roundFloat64 (neg : Bool) (num den : Nat) : Float64 × Bool :=
  if num = 0 then (Float64.finite neg 0 (-1074), false)
  else
    let e : Int := max (binade num den - 52) (-1074)
    packFloat64 neg
      (roundQuot (if 0 ≤ e then num else num * 2 ^ (-e).toNat)
        (if 0 ≤ e then den * 2 ^ e.toNat else den)) e

/-- ASCII lower case. -/
def lowerASCII (c : Char) : Char :=
  if 65 ≤ c.toNat && c.toNat ≤ 90 then Char.ofNat (c.toNat + 32) else c

/-- The function `commonPrefixLenIgnoreCase` of `strconv`; `pre` is in lower case. -/
def commonPrefixLenIgnoreCase : GoString → GoString → Nat
  | c :: s, p :: pre => if lowerASCII c = p then commonPrefixLenIgnoreCase s pre + 1 else 0
  | _, _ => 0

/-- The length of a leading `inf` or `infinity`, in any case; else some other number. -/
def infLen (s : GoString) : Nat :=
  let n := commonPrefixLenIgnoreCase s "infinity".toList
  if 3 < n && n < 8 then 3 else n

/-- The function `special` of `strconv`: a leading infinity (with an optional
sign) or NaN, and the number of characters it takes. -/
def special (s : GoString) : Option (Float64 × Nat) :=
  match s with
  | [] => none
  | c :: rest =>
    if c = '+' || c = '-' then
      if infLen rest = 3 || infLen rest = 8 then some (Float64.inf (c = '-'), infLen rest + 1)
      else none
    else if c = 'i' || c = 'I' then
      if infLen s = 3 || infLen s = 8 then some (Float64.inf false, infLen s) else none
    else if c = 'n' || c = 'N' then
      if commonPrefixLenIgnoreCase s "nan".toList = 3 then some (Float64.nan, 3) else none
    else none

/-- The number a run of decimal digits stands for. -/
def digitsValue (ds : GoString) : Nat := ds.foldl (fun a c => 10 * a + digitVal c) 0

/-- The exponent a run of digits stands for, as `readFloat` accumulates it:
digits are no longer taken in once the exponent has reached 10000. -/
def expValue (ds : GoString) : Nat :=
  ds.foldl (fun e c => if e < 10000 then e * 10 + digitVal c else e) 0

/-- A decimal numeral read by `readFloat`: the number `(-1)^neg * mant * 10^exp`. -/
structure Decimal where
  neg : Bool
  mant : Nat
  exp : Int
  deriving DecidableEq, Repr

/-- The text after an optional leading sign. -/
def dropSign : GoString → GoString
  | [] => []
  | c :: r => if c = '+' ∨ c = '-' then r else c :: r

/-- Whether the text begins with a minus sign. -/
def hasMinus : GoString → Bool
  | [] => false
  | c :: _ => decide (c = '-')

/-- The digits after a leading point; none when the text has no leading point. -/
def fracDigits : GoString → GoString
  | [] => []
  | c :: r => if c = '.' then (spanDigits r).1 else []

/-- The text after a leading point and its digits. -/
def afterFrac : GoString → GoString
  | [] => []
  | c :: r => if c = '.' then (spanDigits r).2 else c :: r

/-- The optional exponent of `readFloat`, for a numeral read so far with `neg`,
`mant` and `fracLen` digits after the point: `e` or `E`, an optional sign, at
least one digit.  Without an exponent the text is left where it is. -/
def readExp (neg : Bool) (mant fracLen : Nat) (s : GoString) : Option (Decimal × GoString) :=
  match s with
  | [] => some (⟨neg, mant, -(fracLen : Int)⟩, [])
  | c :: r =>
    if c = 'e' ∨ c = 'E' then
      match r with
      | [] => none
      | sg :: r2 =>
        if (spanDigits (if sg = '+' ∨ sg = '-' then r2 else r)).1 = [] then none
        else
          some (⟨neg, mant,
              (if sg = '-' then -1 else 1) *
                  (expValue (spanDigits (if sg = '+' ∨ sg = '-' then r2 else r)).1 : Int) -
                (fracLen : Int)⟩,
            (spanDigits (if sg = '+' ∨ sg = '-' then r2 else r)).2)
    else some (⟨neg, mant, -(fracLen : Int)⟩, c :: r)

/-- The function `readFloat` of `strconv` on decimal numerals: an optional
sign, digits with at most one point and at least one digit, an optional
exponent; with the text that follows the numeral.  The hexadecimal form and
the underscores of Go literals are not modelled (they are read as far as their
decimal beginning): a text held by a `json.RawMessage` has neither. -/
def readFloat (s : GoString) : Option (Decimal × GoString) :=
  let ip := (spanDigits (dropSign s)).1
  let s2 := (spanDigits (dropSign s)).2
  if ip = [] ∧ fracDigits s2 = [] then none
  else readExp (hasMinus s) (digitsValue (ip ++ fracDigits s2)) (fracDigits s2).length
    (afterFrac s2)

/-- The `float64` nearest to a decimal numeral, and whether it is out of range. -/
def Decimal.round (d : Decimal) : Float64 × Bool :=
  if 0 ≤ d.exp then roundFloat64 d.neg (d.mant * 10 ^ d.exp.toNat) 1
  else roundFloat64 d.neg d.mant (10 ^ (-d.exp).toNat)

/-- The call `strconv.ParseFloat(s, 64)`: the value and the error.  A text that
is not wholly a numeral gives `0` and a syntax error; a numeral out of range
gives an infinity and a range error. -/
def ParseFloat (s : GoString) : Float64 × Option GoError :=
  match special s with
  | some (f, n) =>
    if n = s.length then (f, none) else (Float64.zero, some (GoError.numSyntax s))
  | none =>
    match readFloat s with
    | some (d, []) => (d.round.1, if d.round.2 then some (GoError.numRange s) else none)
    | _ => (Float64.zero, some (GoError.numSyntax s))

/-! `encoding/json`: writing the request

The text written by `json.Encoder.Encode` is kept as the JSON value it spells
(`Json`): the object members in the order of the struct fields, under the
names of their `json` tags. -/

/-- A JSON value as written by the encoder. -/
inductive Json where
  | null
  | bool (b : Bool)
  | int (n : Int)
  | float (f : Float64)
  | str (s : GoString)
  | arr (elems : List Json)
  | obj (members : List (GoString × Json))

/-- The values that the typed operations put in a `[]any` parameter list. -/
inductive Param where
  | string (s : GoString)
  | uint64 (n : Nat)
  | bool (b : Bool)
  | float64 (f : Float64)
  deriving DecidableEq, Repr

/-- The argument `params interface{}` of `call`: `nil`, or a `[]any`. -/
abbrev Params := Option (List Param)

/-- The struct `rpcRequest`. -/
structure rpcRequest where
  Method : GoString
  Params : Params
  Id : Int
  JsonRpc : GoString

/-- Encode one parameter.  A NaN or an infinity is an `UnsupportedValueError`. -/
def marshalParam : Param → Sum GoError Json
  | Param.string s => Sum.inr (Json.str s)
  | Param.uint64 n => Sum.inr (Json.int n)
  | Param.bool b => Sum.inr (Json.bool b)
  | Param.float64 (Float64.finite neg mant exp) =>
    Sum.inr (Json.float (Float64.finite neg mant exp))
  | Param.float64 (Float64.inf false) => Sum.inl (GoError.jsonUnsupportedValue "+Inf".toList)
  | Param.float64 (Float64.inf true) => Sum.inl (GoError.jsonUnsupportedValue "-Inf".toList)
  | Param.float64 Float64.nan => Sum.inl (GoError.jsonUnsupportedValue "NaN".toList)

/-- Encode the elements of a parameter list, stopping at the first error. -/
def marshalList : List Param → Sum GoError (List Json)
  | [] => Sum.inr []
  | p :: ps =>
    match marshalParam p with
    | Sum.inl e => Sum.inl e
    | Sum.inr j =>
      match marshalList ps with
      | Sum.inl e => Sum.inl e
      | Sum.inr js => Sum.inr (j :: js)

/-- Encode the `params` value: `null` for `nil`, an array for a list. -/
def marshalParams : Params → Sum GoError Json
  | none => Sum.inr Json.null
  | some ps =>
    match marshalList ps with
    | Sum.inl e => Sum.inl e
    | Sum.inr js => Sum.inr (Json.arr js)

/-- The call `enc.Encode(r)` on an `rpcRequest`: the error, or the value written
to the buffer. -/
def encodeRequest (r : rpcRequest) : Sum GoError Json :=
  match marshalParams r.Params with
  | Sum.inl e => Sum.inl e
  | Sum.inr ps =>
    Sum.inr (Json.obj [("method".toList, Json.str r.Method), ("params".toList, ps),
      ("id".toList, Json.int r.Id), ("jsonrpc".toList, Json.str r.JsonRpc)])

/-! `encoding/base64` and the bytes of a string -/

/-- The UTF-8 bytes of a character. -/
def utf8Bytes (c : Char) : List Nat :=
  if c.toNat < 0x80 then [c.toNat]
  else if c.toNat < 0x800 then [0xC0 + c.toNat / 64, 0x80 + c.toNat % 64]
  else if c.toNat < 0x10000 then
    [0xE0 + c.toNat / 4096, 0x80 + c.toNat / 64 % 64, 0x80 + c.toNat % 64]
  else
    [0xF0 + c.toNat / 262144, 0x80 + c.toNat / 4096 % 64, 0x80 + c.toNat / 64 % 64,
      0x80 + c.toNat % 64]

/-- The bytes of a Go string: `[]byte(s)`. -/
def toBytes : GoString → List Nat
  | [] => []
  | c :: cs => utf8Bytes c ++ toBytes cs

/-- The character of a 6-bit value in the standard base64 alphabet. -/
def b64Char (i : Nat) : Char :=
  if i < 26 then Char.ofNat (65 + i)
  else if i < 52 then Char.ofNat (71 + i)
  else if i < 62 then Char.ofNat (i - 4)
  else if i = 62 then '+'
  else '/'

/-- The 6-bit value of a character of the standard base64 alphabet. -/
def b64Val (c : Char) : Option Nat :=
  if 65 ≤ c.toNat ∧ c.toNat ≤ 90 then some (c.toNat - 65)
  else if 97 ≤ c.toNat ∧ c.toNat ≤ 122 then some (c.toNat - 71)
  else if 48 ≤ c.toNat ∧ c.toNat ≤ 57 then some (c.toNat + 4)
  else if c = '+' then some 62
  else if c = '/' then some 63
  else none

/-- The call `base64.StdEncoding.EncodeToString(bs)`: three bytes give four
characters, and a last group of one or two bytes is padded with `=`. -/
def base64Encode : List Nat → GoString
  | [] => []
  | [a] => [b64Char (a / 4), b64Char (a % 4 * 16), '=', '=']
  | [a, b] => [b64Char (a / 4), b64Char (a % 4 * 16 + b / 16), b64Char (b % 16 * 4), '=']
  | a :: b :: c :: rest =>
    b64Char (a / 4) :: b64Char (a % 4 * 16 + b / 16) :: b64Char (b % 16 * 4 + c / 64) ::
      b64Char (c % 64) :: base64Encode rest

/-- The bytes that a padded base64 text in the standard alphabet stands for
(RFC 4648); `none` when the text is not such an encoding. -/
def base64Decode : GoString → Option (List Nat)
  | [] => some []
  | w :: x :: y :: z :: rest =>
    if y = '=' ∧ z = '=' ∧ rest = [] then
      match b64Val w, b64Val x with
      | some p, some q => some [p * 4 + q / 16]
      | _, _ => none
    else if z = '=' ∧ rest = [] then
      match b64Val w, b64Val x, b64Val y with
      | some p, some q, some r => some [p * 4 + q / 16, q % 16 * 16 + r / 4]
      | _, _, _ => none
    else
      match b64Val w, b64Val x, b64Val y, b64Val z, base64Decode rest with
      | some p, some q, some r, some t, some bs =>
        some ((p * 4 + q / 16) :: (q % 16 * 16 + r / 4) :: (r % 4 * 64 + t) :: bs)
      | _, _, _, _, _ => none
  | _ => none

/-- The function `basicAuth` of `net/http`: the base64 text of
`username + ":" + password`. -/
def basicAuth (username password : List Nat) : GoString :=
  base64Encode (username ++ 58 :: password)

/-- Cut bytes at their first colon (`strings.Cut(s, ":")`); `none` without a colon. -/
def cutColon : List Nat → Option (List Nat × List Nat)
  | [] => none
  | x :: xs =>
    if x = 58 then some ([], xs)
    else
      match cutColon xs with
      | some (u, p) => some (x :: u, p)
      | none => none

/-- The credentials that the receiver of a request reads from the value of an
`Authorization` header (RFC 7617, and `Request.BasicAuth` of `net/http`): after
the scheme `Basic`, in any case, and a space, the base64 text is decoded and
cut at its first colon into the bytes of the user name and of the password. -/
def readBasicAuth (value : GoString) : Option (List Nat × List Nat) :=
  if (value.take 6).map lowerASCII = "basic ".toList then
    match base64Decode (value.drop 6) with
    | some bs => cutColon bs
    | none => none
  else none

/-! `net/http`, `net/url`, `io`, `time`: the surroundings of the package -/

/-- An `*http.Request`.  `Header` holds the header entries in the order they
were made, under their canonical keys. -/
structure Request where
  Method : GoString
  URL : GoString
  Header : List (GoString × GoString)
  Body : Json

/-- The method `Header.Add`. -/
def Request.addHeader (r : Request) (key value : GoString) : Request :=
  { r with Header := r.Header ++ [(key, value)] }

/-- The method `Header.Set`: the entries of the key are replaced by one entry. -/
def Request.setHeader (r : Request) (key value : GoString) : Request :=
  { r with Header := r.Header.filter (fun kv => decide (kv.1 ≠ key)) ++ [(key, value)] }

/-- The values of the header entries of a key. -/
def Request.headerValues (r : Request) (key : GoString) : List GoString :=
  (r.Header.filter (fun kv => decide (kv.1 = key))).map (fun kv => kv.2)

/-- The method `Header.Get`: the first value of the key, and `""` without one. -/
def Request.headerGet (r : Request) (key : GoString) : GoString :=
  (r.headerValues key).headD []

/-- The method `SetBasicAuth`: it sets the header
`Authorization: Basic base64(username:password)`. -/
def Request.SetBasicAuth (r : Request) (username password : GoString) : Request :=
  r.setHeader "Authorization".toList
    ("Basic ".toList ++ basicAuth (toBytes username) (toBytes password))

/-- The authority of a URL that `call` builds: what follows `http://`, up to
the first `/`, `?` or `#` (`url.Parse` cuts the fragment, then the query, then
the path). -/
def urlAuthority (url : GoString) : Option GoString :=
  match url with
  | 'h' :: 't' :: 't' :: 'p' :: ':' :: '/' :: '/' :: rest =>
    some (rest.takeWhile (fun c => c != '/' && c != '?' && c != '#'))
  | _ => none

/-- The function `unescape` of `net/url` on a part of the userinfo: every
`%XX` becomes the byte it names; `none` stands for its `EscapeError`. -/
def unescape : Nat → List Nat → Option (List Nat)
  | 0, _ => none
  | _ + 1, [] => some []
  | fuel + 1, c :: rest =>
    if c = 37 then
      match rest with
      | a :: b :: rest2 =>
        match hexVal (Char.ofNat a), hexVal (Char.ofNat b), unescape fuel rest2 with
        | some x, some y, some bs => some ((x * 16 + y) :: bs)
        | _, _, _ => none
      | _ => none
    else
      match unescape fuel rest with
      | some bs => some (c :: bs)
      | none => none

/-- The user name and the password of `URL.User` for a URL that `call` builds
and `url.Parse` accepts (`parseAuthority`): the userinfo is the authority up to
its last `@`, cut at its first colon, each part unescaped; `none` when the
authority has no `@`. -/
def urlUserinfo (url : GoString) : Option (List Nat × List Nat) :=
  match urlAuthority url with
  | none => none
  | some authority =>
    if '@' ∈ authority then
      match
        unescape (url.length + 1) (toBytes
          (((authority.reverse.dropWhile (fun c => c != '@')).drop 1).reverse.takeWhile
            (fun c => c != ':'))),
        unescape (url.length + 1) (toBytes
          ((((authority.reverse.dropWhile (fun c => c != '@')).drop 1).reverse.dropWhile
            (fun c => c != ':')).drop 1)) with
      | some u, some p => some (u, p)
      | _, _ => none
    else none

/-- The request that `net/http` puts on the wire for a request handed to
`Client.Do` (function `send`): when the URL has userinfo and the request has no
`Authorization` header, the header `Basic base64(username:password)` of the
userinfo is set. -/
def wireRequest (req : Request) : Request :=
  match urlUserinfo req.URL with
  | some (u, p) =>
    if req.headerGet "Authorization".toList = [] then
      req.setHeader "Authorization".toList ("Basic ".toList ++ basicAuth u p)
    else req
  | none => req

/-- An `*http.Response`: the status code, the value of its `Location` header
(`""` without one), the bytes that `io.ReadAll(resp.Body)` returns, and the error
of that read. -/
structure Response where
  StatusCode : Int
  Location : GoString
  Body : GoString
  ReadErr : Option GoError

/-- An `*http.Client`: what its method `Do` returns for a request. -/
abbrev HTTPClient := Request → Sum GoError Response

/-- What the package takes from outside.

* `now`: the clock reading `time.Now().UnixNano()`.
* `newRequestErr`: the error of `http.NewRequest("POST", url, buf)` for a URL (it
  fails when the URL does not parse).
* `locationErr`: the error of parsing the `Location` header of a redirect.
* `roundTrip`: what the network answers to the request of a call put on the
  wire, an error of the round trip (as `Do` returns it) or a response.
* `follow`: what the network answers when the client follows a redirect of the
  call begun with the request `first`; the request it builds for the `n`-th
  redirect has the method `method`, the URL that `location` resolves to, headers
  copied from `first`, and the body of `first` when `includeBody`. -/
structure Env where
  now : Int
  newRequestErr : GoString → Option GoError
  locationErr : GoString → Option GoError
  roundTrip : Request → Sum GoError Response
  follow : (first : Request) → (n : Nat) → (method location : GoString) →
    (includeBody : Bool) → Sum GoError Response

/-- The function `redirectBehavior` of `net/http` for a request whose body can
be sent again (`http.NewRequest` sets `GetBody` for a `*bytes.Buffer`): the method
of the next request, whether the response is a redirect, and whether the body
is sent again. -/
def redirectBehavior (reqMethod : GoString) (status : Int) : GoString × Bool × Bool :=
  if status = 301 ∨ status = 302 ∨ status = 303 then
    (if reqMethod ≠ "GET".toList ∧ reqMethod ≠ "HEAD".toList then "GET".toList else reqMethod,
      true, false)
  else if status = 307 ∨ status = 308 then (reqMethod, true, true)
  else ([], false, false)

/-- Whether the client follows the response to a request of the given method
instead of returning it: a redirect status with a `Location` header. -/
def followed (reqMethod : GoString) (resp : Response) : Bool :=
  (redirectBehavior reqMethod resp.StatusCode).2.1 && decide (resp.Location ≠ [])

/-- The loop of `Client.do` after a response was received to the `n`-th request
of a call (`n` counts the requests made, `left` the requests that the default
`CheckRedirect` still allows; ten in all).  A response that is not a redirect,
or has no `Location`, is returned.  Otherwise the `Location` is parsed, the
limit is checked, and the redirect is followed. -/
def redirects (env : Env) (first : Request) :
    (left : Nat) → (n : Nat) → (reqMethod : GoString) → Response → Sum GoError Response
  | left, n, reqMethod, resp =>
    if (redirectBehavior reqMethod resp.StatusCode).2.1 = false then Sum.inr resp
    else if resp.Location = [] then Sum.inr resp
    else
      match env.locationErr resp.Location with
      | some err => Sum.inl err
      | none =>
        match left with
        | 0 => Sum.inl GoError.redirectLimit
        | left1 + 1 =>
          match env.follow first n (redirectBehavior reqMethod resp.StatusCode).1 resp.Location
              (redirectBehavior reqMethod resp.StatusCode).2.2 with
          | Sum.inl err => Sum.inl err
          | Sum.inr resp2 =>
            redirects env first left1 (n + 1) (redirectBehavior reqMethod resp.StatusCode).1
              resp2

/-- The client `http.DefaultClient`: it puts the request on the wire and follows
redirects, up to ten requests in all. -/
def DefaultClient (env : Env) : HTTPClient :=
  fun req =>
    match env.roundTrip (wireRequest req) with
    | Sum.inl err => Sum.inl err
    | Sum.inr resp => redirects env req 9 1 req.Method resp

/-- A record of what has been done: how many times `rpcClient.call` has been
entered, and the requests handed to the HTTP client, oldest first. -/
structure World where
  calls : Nat
  sent : List Request

/-- The world before anything has happened. -/
def World.init : World := ⟨0, []⟩

/-! rpc.go: the transport -/

/-- The struct `rpcClient`. -/
structure rpcClient where
  addr : GoString
  user : GoString
  pswd : GoString
  httpClient : HTTPClient

/-- The method `rpcClient.call`: the response envelope `rr`, the error `err`,
and the world after the call. -/
def rpcClient.call (env : Env) (c : rpcClient) (account method : GoString) (params : Params)
    (w : World) : (rpcResponse × Option GoError) × World :=
  let w1 : World := { w with calls := w.calls + 1 }
  let url := "http://".toList ++ c.addr
  let url := if account.length > 0 then url ++ ("/wallet/".toList ++ account) else url
  match encodeRequest ⟨method, params, env.now, "1.0".toList⟩ with
  | Sum.inl err => ((rpcResponse.zero, some err), w1)
  | Sum.inr buf =>
    match env.newRequestErr url with
    | some err => ((rpcResponse.zero, some err), w1)
    | none =>
      let req : Request := ⟨"POST".toList, url, [], buf⟩
      let req := req.addHeader "Content-Type".toList "application/json;charset=utf-8".toList
      let req := req.addHeader "Accept".toList "application/json".toList
      let req := if c.user.length > 0 && c.pswd.length > 0 then req.SetBasicAuth c.user c.pswd
        else req
      let w2 : World := { w1 with sent := w1.sent ++ [req] }
      match c.httpClient req with
      | Sum.inl err => ((rpcResponse.zero, some err), w2)
      | Sum.inr resp =>
        match resp.ReadErr with
        | some err => ((rpcResponse.zero, some err), w2)
        | none => (unmarshalResponse resp.Body rpcResponse.zero, w2)

/-- Modelled from the spec: `handleError`, which the typed operations call and
which neither `rpc.go` nor `bitcoind.go` defines.  Steps 2 and 3 of the spec's
per-call algorithm: "If the transport call itself failed, propagate that
failure unchanged.  If the response envelope carries a structured RPC error,
fail with that error"; otherwise there is no error. -/
def handleError (err : Option GoError) (r : rpcResponse) : Option GoError :=
  match err with
  | some e => some e
  | none =>
    match r.Err with
    | some e => some (GoError.rpc e)
    | none => none

/-! bitcoind.go: the typed operations -/

/-- The struct `ValidateAddressResponse`. -/
structure ValidateAddressResponse where
  IsValid : Bool
  Address : GoString
  IsMine : Bool
  IsScript : Bool
  PubKey : GoString
  IsCompressed : Bool
  Account : GoString
  deriving DecidableEq, Repr

/-- The zero value of `ValidateAddressResponse`. -/
def ValidateAddressResponse.zero : ValidateAddressResponse :=
  ⟨false, [], false, false, [], false, []⟩

/-- The `json` tags of the fields of `ValidateAddressResponse`. -/
def validateAddressFields : List GoString :=
  ["isvalid".toList, "address".toList, "ismine".toList, "isscript".toList, "pubkey".toList,
    "iscompressed".toList, "account".toList]

/-- Store the members of an object into a `ValidateAddressResponse`. -/
def storeValidateAddressFields :
    List (GoString × GoString × JVal) → ValidateAddressResponse → Option GoError →
      ValidateAddressResponse × Option GoError
  | [], va, saved => (va, saved)
  | (key, _, v) :: ms, va, saved =>
    let f := findField validateAddressFields key
    if f = some "isvalid".toList then
      storeValidateAddressFields ms { va with IsValid := (storeBool v va.IsValid).1 }
        (saveError saved (storeBool v va.IsValid).2)
    else if f = some "address".toList then
      storeValidateAddressFields ms { va with Address := (storeString v va.Address).1 }
        (saveError saved (storeString v va.Address).2)
    else if f = some "ismine".toList then
      storeValidateAddressFields ms { va with IsMine := (storeBool v va.IsMine).1 }
        (saveError saved (storeBool v va.IsMine).2)
    else if f = some "isscript".toList then
      storeValidateAddressFields ms { va with IsScript := (storeBool v va.IsScript).1 }
        (saveError saved (storeBool v va.IsScript).2)
    else if f = some "pubkey".toList then
      storeValidateAddressFields ms { va with PubKey := (storeString v va.PubKey).1 }
        (saveError saved (storeString v va.PubKey).2)
    else if f = some "iscompressed".toList then
      storeValidateAddressFields ms { va with IsCompressed := (storeBool v va.IsCompressed).1 }
        (saveError saved (storeBool v va.IsCompressed).2)
    else if f = some "account".toList then
      storeValidateAddressFields ms { va with Account := (storeString v va.Account).1 }
        (saveError saved (storeString v va.Account).2)
    else storeValidateAddressFields ms va saved

/-- The call `json.Unmarshal(data, &va)` on a `ValidateAddressResponse`. -/
def unmarshalValidateAddress (data : GoString) (va : ValidateAddressResponse) :
    ValidateAddressResponse × Option GoError :=
  match parseJSON data with
  | none => (va, some GoError.jsonSyntax)
  | some JVal.null => (va, none)
  | some (JVal.obj ms) => storeValidateAddressFields ms va none
  | some w =>
    (va, some (GoError.jsonUnmarshalType w.describe "bitcoind.ValidateAddressResponse".toList))

/-- The declarations of the package that `rpc.go` and `bitcoind.go` use and do
not contain: the types `Peer` and `WalletInfo`.  Each comes with what the JSON
decoder stores into a target of the type from a valid JSON value (the new
content of the target and the error); `zeroWalletInfo` is the zero value of
`WalletInfo`, and the zero value of `[]Peer` is the nil slice `[]`. -/
structure Decls where
  Peer : Type
  WalletInfo : Type
  zeroWalletInfo : WalletInfo
  storePeers : JVal → List Peer → List Peer × Option GoError
  storeWalletInfo : JVal → WalletInfo → WalletInfo × Option GoError

/-- The call `json.Unmarshal(data, &peerInfo)` on a `[]Peer`. -/
def unmarshalPeers (D : Decls) (data : GoString) (peerInfo : List D.Peer) :
    List D.Peer × Option GoError :=
  match parseJSON data with
  | none => (peerInfo, some GoError.jsonSyntax)
  | some v => D.storePeers v peerInfo

/-- The call `json.Unmarshal(data, &i)` on a `WalletInfo`. -/
def unmarshalWalletInfo (D : Decls) (data : GoString) (i : D.WalletInfo) :
    D.WalletInfo × Option GoError :=
  match parseJSON data with
  | none => (i, some GoError.jsonSyntax)
  | some v => D.storeWalletInfo v i

/-- The struct `Bitcoind`. -/
structure Bitcoind where
  client : rpcClient

/-- The function `New`; its error is always nil. -/
def New (env : Env) (addr user pswd : GoString) : Bitcoind × Option GoError :=
  (⟨⟨addr, user, pswd, DefaultClient env⟩⟩, none)

/-- The method `LoadWallet`. -/
def Bitcoind.LoadWallet (env : Env) (b : Bitcoind) (account : GoString) (w : World) :
    Option GoError × World :=
  let out := b.client.call env [] "loadwallet".toList (some [Param.string account]) w
  (out.1.2, out.2)

/-- The method `GetBalance`. -/
def Bitcoind.GetBalance (env : Env) (b : Bitcoind) (account : GoString) (minconf : Nat)
    (w : World) : (Float64 × Option GoError) × World :=
  let out := b.client.call env account "getbalance".toList
    (some [Param.string "*".toList, Param.uint64 minconf]) w
  match handleError out.1.2 out.1.1 with
  | some err => ((Float64.zero, some err), out.2)
  | none => (ParseFloat out.1.1.Result, out.2)

/-- The method `ImportPrivKey`. -/
def Bitcoind.ImportPrivKey (env : Env) (b : Bitcoind) (privKey account : GoString)
    (rescan : Bool) (w : World) : Option GoError × World :=
  let out := b.client.call env account "importprivkey".toList
    (some [Param.string privKey, Param.string account, Param.bool rescan]) w
  (handleError out.1.2 out.1.1, out.2)

/-- The method `GetNewAddress`. -/
def Bitcoind.GetNewAddress (env : Env) (b : Bitcoind) (account : GoString) (w : World) :
    (GoString × Option GoError) × World :=
  let out := b.client.call env account "getnewaddress".toList (some [Param.string account]) w
  match handleError out.1.2 out.1.1 with
  | some err => (([], some err), out.2)
  | none => (unmarshalString out.1.1.Result [], out.2)

/-- The method `CreateWallet`. -/
def Bitcoind.CreateWallet (env : Env) (b : Bitcoind) (account : GoString) (w : World) :
    Option GoError × World :=
  let out := b.client.call env [] "createwallet".toList
    (some [Param.string account, Param.bool false, Param.bool false, Param.string [],
      Param.bool false, Param.bool false]) w
  (out.1.2, out.2)

/-- The method `GetPeerInfo`. -/
def Bitcoind.GetPeerInfo (D : Decls) (env : Env) (b : Bitcoind) (w : World) :
    (List D.Peer × Option GoError) × World :=
  let out := b.client.call env [] "getpeerinfo".toList none w
  match handleError out.1.2 out.1.1 with
  | some err => (([], some err), out.2)
  | none => (unmarshalPeers D out.1.1.Result [], out.2)

/-- The method `EncryptWallet`. -/
def Bitcoind.EncryptWallet (env : Env) (b : Bitcoind) (account passphrase : GoString)
    (w : World) : Option GoError × World :=
  let out := b.client.call env account "encryptwallet".toList (some [Param.string passphrase]) w
  (handleError out.1.2 out.1.1, out.2)

/-- The method `SendToAddress`. -/
def Bitcoind.SendToAddress (env : Env) (b : Bitcoind) (fromAccount toAddress : GoString)
    (amount : Float64) (comment commentTo : GoString) (subfee : Bool) (w : World) :
    (GoString × Option GoError) × World :=
  let out := b.client.call env fromAccount "sendtoaddress".toList
    (some [Param.string toAddress, Param.float64 amount, Param.string comment,
      Param.string commentTo, Param.bool subfee]) w
  match handleError out.1.2 out.1.1 with
  | some err => (([], some err), out.2)
  | none => (unmarshalString out.1.1.Result [], out.2)

/-- The method `DumpPrivKey`. -/
def Bitcoind.DumpPrivKey (env : Env) (b : Bitcoind) (account address : GoString) (w : World) :
    (GoString × Option GoError) × World :=
  let out := b.client.call env account "dumpprivkey".toList (some [Param.string address]) w
  match handleError out.1.2 out.1.1 with
  | some err => (([], some err), out.2)
  | none => (unmarshalString out.1.1.Result [], out.2)

/-- The method `ListDescriptors`. -/
def Bitcoind.ListDescriptors (env : Env) (b : Bitcoind) (account : GoString) (bb : Bool)
    (w : World) : Option GoError × World :=
  let out := b.client.call env account "listdescriptors".toList (some [Param.bool bb]) w
  match handleError out.1.2 out.1.1 with
  | some err => (some err, out.2)
  | none => (none, out.2)

/-- The method `GetWalletInfo`. -/
def Bitcoind.GetWalletInfo (D : Decls) (env : Env) (b : Bitcoind) (account : GoString)
    (w : World) : (D.WalletInfo × Option GoError) × World :=
  let out := b.client.call env account "getwalletinfo".toList none w
  match handleError out.1.2 out.1.1 with
  | some err => ((D.zeroWalletInfo, some err), out.2)
  | none => (unmarshalWalletInfo D out.1.1.Result D.zeroWalletInfo, out.2)

/-- The method `ValidateAddress`. -/
def Bitcoind.ValidateAddress (env : Env) (b : Bitcoind) (address : GoString) (w : World) :
    (ValidateAddressResponse × Option GoError) × World :=
  let out := b.client.call env [] "validateaddress".toList (some [Param.string address]) w
  match handleError out.1.2 out.1.1 with
  | some err => ((ValidateAddressResponse.zero, some err), out.2)
  | none => (unmarshalValidateAddress out.1.1.Result ValidateAddressResponse.zero, out.2)

/-! The typed operations as one family -/

/-- A typed operation with its arguments. -/
inductive Op where
  | LoadWallet (account : GoString)
  | CreateWallet (account : GoString)
  | GetBalance (account : GoString) (minconf : Nat)
  | ImportPrivKey (privKey account : GoString) (rescan : Bool)
  | GetNewAddress (account : GoString)
  | GetPeerInfo
  | EncryptWallet (account passphrase : GoString)
  | SendToAddress (fromAccount toAddress : GoString) (amount : Float64)
      (comment commentTo : GoString) (subfee : Bool)
  | DumpPrivKey (account address : GoString)
  | ListDescriptors (account : GoString) (bb : Bool)
  | GetWalletInfo (account : GoString)
  | ValidateAddress (address : GoString)

/-- What a typed operation returns beside its error. -/
inductive Value (D : Decls) where
  | nothing
  | float64 (f : Float64)
  | string (s : GoString)
  | peers (l : List D.Peer)
  | walletInfo (i : D.WalletInfo)
  | validateAddress (va : ValidateAddressResponse)

/-- Run a typed operation: the value, the error and the world afterwards. -/
def Op.run (D : Decls) (env : Env) (b : Bitcoind) (op : Op) (w : World) :
    (Value D × Option GoError) × World :=
  match op with
  | Op.LoadWallet account =>
    ((Value.nothing, (b.LoadWallet env account w).1), (b.LoadWallet env account w).2)
  | Op.CreateWallet account =>
    ((Value.nothing, (b.CreateWallet env account w).1), (b.CreateWallet env account w).2)
  | Op.GetBalance account minconf =>
    ((Value.float64 (b.GetBalance env account minconf w).1.1,
      (b.GetBalance env account minconf w).1.2), (b.GetBalance env account minconf w).2)
  | Op.ImportPrivKey privKey account rescan =>
    ((Value.nothing, (b.ImportPrivKey env privKey account rescan w).1),
      (b.ImportPrivKey env privKey account rescan w).2)
  | Op.GetNewAddress account =>
    ((Value.string (b.GetNewAddress env account w).1.1, (b.GetNewAddress env account w).1.2),
      (b.GetNewAddress env account w).2)
  | Op.GetPeerInfo =>
    ((Value.peers (b.GetPeerInfo D env w).1.1, (b.GetPeerInfo D env w).1.2),
      (b.GetPeerInfo D env w).2)
  | Op.EncryptWallet account passphrase =>
    ((Value.nothing, (b.EncryptWallet env account passphrase w).1),
      (b.EncryptWallet env account passphrase w).2)
  | Op.SendToAddress fromAccount toAddress amount comment commentTo subfee =>
    ((Value.string (b.SendToAddress env fromAccount toAddress amount comment commentTo subfee w).1.1,
      (b.SendToAddress env fromAccount toAddress amount comment commentTo subfee w).1.2),
      (b.SendToAddress env fromAccount toAddress amount comment commentTo subfee w).2)
  | Op.DumpPrivKey account address =>
    ((Value.string (b.DumpPrivKey env account address w).1.1,
      (b.DumpPrivKey env account address w).1.2), (b.DumpPrivKey env account address w).2)
  | Op.ListDescriptors account bb =>
    ((Value.nothing, (b.ListDescriptors env account bb w).1),
      (b.ListDescriptors env account bb w).2)
  | Op.GetWalletInfo account =>
    ((Value.walletInfo (b.GetWalletInfo D env account w).1.1,
      (b.GetWalletInfo D env account w).1.2), (b.GetWalletInfo D env account w).2)
  | Op.ValidateAddress address =>
    ((Value.validateAddress (b.ValidateAddress env address w).1.1,
      (b.ValidateAddress env address w).1.2), (b.ValidateAddress env address w).2)

/-- The wallet scope that a typed operation passes to `call`. -/
def Op.scope : Op → GoString
  | Op.LoadWallet _ => []
  | Op.CreateWallet _ => []
  | Op.GetBalance account _ => account
  | Op.ImportPrivKey _ account _ => account
  | Op.GetNewAddress account => account
  | Op.GetPeerInfo => []
  | Op.EncryptWallet account _ => account
  | Op.SendToAddress fromAccount _ _ _ _ _ => fromAccount
  | Op.DumpPrivKey account _ => account
  | Op.ListDescriptors account _ => account
  | Op.GetWalletInfo account => account
  | Op.ValidateAddress _ => []

/-- The method name that a typed operation passes to `call`. -/
def Op.method : Op → GoString
  | Op.LoadWallet _ => "loadwallet".toList
  | Op.CreateWallet _ => "createwallet".toList
  | Op.GetBalance _ _ => "getbalance".toList
  | Op.ImportPrivKey _ _ _ => "importprivkey".toList
  | Op.GetNewAddress _ => "getnewaddress".toList
  | Op.GetPeerInfo => "getpeerinfo".toList
  | Op.EncryptWallet _ _ => "encryptwallet".toList
  | Op.SendToAddress _ _ _ _ _ _ => "sendtoaddress".toList
  | Op.DumpPrivKey _ _ => "dumpprivkey".toList
  | Op.ListDescriptors _ _ => "listdescriptors".toList
  | Op.GetWalletInfo _ => "getwalletinfo".toList
  | Op.ValidateAddress _ => "validateaddress".toList

/-- The parameters that a typed operation passes to `call`. -/
def Op.params : Op → Params
  | Op.LoadWallet account => some [Param.string account]
  | Op.CreateWallet account =>
    some [Param.string account, Param.bool false, Param.bool false, Param.string [],
      Param.bool false, Param.bool false]
  | Op.GetBalance _ minconf => some [Param.string "*".toList, Param.uint64 minconf]
  | Op.ImportPrivKey privKey account rescan =>
    some [Param.string privKey, Param.string account, Param.bool rescan]
  | Op.GetNewAddress account => some [Param.string account]
  | Op.GetPeerInfo => none
  | Op.EncryptWallet _ passphrase => some [Param.string passphrase]
  | Op.SendToAddress _ toAddress amount comment commentTo subfee =>
    some [Param.string toAddress, Param.float64 amount, Param.string comment,
      Param.string commentTo, Param.bool subfee]
  | Op.DumpPrivKey _ address => some [Param.string address]
  | Op.ListDescriptors _ bb => some [Param.bool bb]
  | Op.GetWalletInfo _ => none
  | Op.ValidateAddress address => some [Param.string address]

/-- The outcome of the one transport call that a typed operation makes. -/
def Op.transport (env : Env) (b : Bitcoind) (op : Op) (w : World) :
    (rpcResponse × Option GoError) × World :=
  b.client.call env op.scope op.method op.params w

/-- Whether the operation passes the outcome of its transport call through
`handleError` (all do, except `LoadWallet` and `CreateWallet`, which return the
error of `call` and drop the envelope). -/
def Op.usesHandleError : Op → Bool
  | Op.LoadWallet _ => false
  | Op.CreateWallet _ => false
  | _ => true

/-- Whether the operation returns a value together with its error. -/
def Op.returnsValue : Op → Bool
  | Op.GetBalance _ _ => true
  | Op.GetNewAddress _ => true
  | Op.GetPeerInfo => true
  | Op.SendToAddress _ _ _ _ _ _ => true
  | Op.DumpPrivKey _ _ => true
  | Op.GetWalletInfo _ => true
  | Op.ValidateAddress _ => true
  | _ => false

/-- The zero value of the operation's result type. -/
def Op.zeroValue (D : Decls) : Op → Value D
  | Op.GetBalance _ _ => Value.float64 Float64.zero
  | Op.GetNewAddress _ => Value.string []
  | Op.GetPeerInfo => Value.peers []
  | Op.SendToAddress _ _ _ _ _ _ => Value.string []
  | Op.DumpPrivKey _ _ => Value.string []
  | Op.GetWalletInfo _ => Value.walletInfo D.zeroWalletInfo
  | Op.ValidateAddress _ => Value.validateAddress ValidateAddressResponse.zero
  | _ => Value.nothing

/-- The decoding that the operation applies to the envelope's result
(`strconv.ParseFloat` for `GetBalance`, `json.Unmarshal` into the zero value
for the others): the value and the error of the decoder. -/
def Op.decode (D : Decls) : Op → GoString → Value D × Option GoError
  | Op.GetBalance _ _, r => (Value.float64 (ParseFloat r).1, (ParseFloat r).2)
  | Op.GetNewAddress _, r => (Value.string (unmarshalString r []).1, (unmarshalString r []).2)
  | Op.GetPeerInfo, r => (Value.peers (unmarshalPeers D r []).1, (unmarshalPeers D r []).2)
  | Op.SendToAddress _ _ _ _ _ _, r =>
    (Value.string (unmarshalString r []).1, (unmarshalString r []).2)
  | Op.DumpPrivKey _ _, r => (Value.string (unmarshalString r []).1, (unmarshalString r []).2)
  | Op.GetWalletInfo _, r =>
    (Value.walletInfo (unmarshalWalletInfo D r D.zeroWalletInfo).1,
      (unmarshalWalletInfo D r D.zeroWalletInfo).2)
  | Op.ValidateAddress _, r =>
    (Value.validateAddress (unmarshalValidateAddress r ValidateAddressResponse.zero).1,
      (unmarshalValidateAddress r ValidateAddressResponse.zero).2)
  | _, _ => (Value.nothing, none)

/-- The request that `call` hands to the HTTP client once the body is encoded
as `buf` and `http.NewRequest` has accepted the URL. -/
def rpcClient.request (c : rpcClient) (account : GoString) (buf : Json) : Request :=
  let url := "http://".toList ++ c.addr
  let url := if account.length > 0 then url ++ ("/wallet/".toList ++ account) else url
  let req : Request := ⟨"POST".toList, url, [], buf⟩
  let req := req.addHeader "Content-Type".toList "application/json;charset=utf-8".toList
  let req := req.addHeader "Accept".toList "application/json".toList
  if c.user.length > 0 && c.pswd.length > 0 then req.SetBasicAuth c.user c.pswd else req

/-! Decimal numerals -/

/-- A decimal numeral `[-]digits[.digits]`: its sign, the digits before the
point and the digits after it. -/
structure Numeral where
  neg : Bool
  int : List (Fin 10)
  frac : List (Fin 10)

/-- The characters of a run of digits. -/
def digitChars (ds : List (Fin 10)) : GoString := ds.map (fun d => digitChar d.val)

/-- The text of a numeral; the point is written when there are digits after it. -/
def Numeral.text (n : Numeral) : GoString :=
  (if n.neg then ['-'] else []) ++ digitChars n.int ++
    (if n.frac = [] then [] else '.' :: digitChars n.frac)

/-- The text of a numeral after its sign. -/
def Numeral.body (n : Numeral) : GoString :=
  digitChars n.int ++ (if n.frac = [] then [] else '.' :: digitChars n.frac)

/-- The natural number that a run of digits denotes. -/
def digitsNat (ds : List (Fin 10)) : Nat := ds.foldl (fun a d => 10 * a + d.val) 0

/-- The number that a numeral denotes. -/
def Numeral.value (n : Numeral) : ℚ :=
  (if n.neg then -1 else 1) * (digitsNat (n.int ++ n.frac) : ℚ) / (10 : ℚ) ^ n.frac.length

/-! A node answering with a fixed body -/

/-- A network that answers every request with the given status code and body,
and with no `Location` header. -/
def serve (status : Int) (body : GoString) : HTTPClient :=
  fun _ => Sum.inr ⟨status, [], body, none⟩

/-- Surroundings in which every URL parses and the network answers every
request with status 200 and the given body. -/
def servingEnv (body : GoString) : Env :=
  ⟨1700000000000000000, fun _ => none, fun _ => none, serve 200 body,
    fun _ _ _ _ _ => serve 200 body ⟨[], [], [], Json.null⟩⟩

/-- Surroundings in which every URL parses and the network answers every
request, the first of a call and those that follow a redirect, with the given
status code, `Location` header and body. -/
def answeringEnv (status : Int) (location body : GoString) : Env :=
  ⟨1700000000000000000, fun _ => none, fun _ => none,
    fun _ => Sum.inr ⟨status, location, body, none⟩,
    fun _ _ _ _ _ => Sum.inr ⟨status, location, body, none⟩⟩

/-- Surroundings in which the HTTP round trip fails with the given error. -/
def failingEnv (e : GoError) : Env :=
  ⟨1700000000000000000, fun _ => none, fun _ => none, fun _ => Sum.inl e,
    fun _ _ _ _ _ => Sum.inl e⟩

/-- Declarations in which `Peer` and `WalletInfo` carry no data. -/
def unitDecls : Decls :=
  ⟨Unit, Unit, (), fun _ l => (l, none), fun _ i => (i, none)⟩

/-! Response bodies used in the examples -/

/-- The body `{"id":1,"result":null,"error":{"code":-18,"message":"Wallet not found"}}`. -/
def rpcErrorBody : GoString :=
  "\x7b\"id\":1,\"result\":null,\"error\":\x7b\"code\":-18,\"message\":\"Wallet not found\"\x7d\x7d".toList

/-- The body `{"id":1,"result":"2.50000000","error":null}`: the result is a JSON string. -/
def quotedBalanceBody : GoString :=
  "\x7b\"id\":1,\"result\":\"2.50000000\",\"error\":null\x7d".toList

/-- The body `{"id":1,"result":"1.5","error":null}`: the result is a JSON string. -/
def quotedBalanceBody2 : GoString :=
  "\x7b\"id\":1,\"result\":\"1.5\",\"error\":null\x7d".toList

/-- The body `{"id":1,"result":2.50000000,"error":null}`: the result is a JSON number. -/
def numberBalanceBody : GoString :=
  "\x7b\"id\":1,\"result\":2.50000000,\"error\":null\x7d".toList

/-- The body `{"id":1,"result":1e400,"error":null}`. -/
def hugeBalanceBody : GoString :=
  "\x7b\"id\":1,\"result\":1e400,\"error\":null\x7d".toList

/-- The body `{"id":1,"result":{"isvalid":true,"address":5},"error":null}`. -/
def partialValidateBody : GoString :=
  "\x7b\"id\":1,\"result\":\x7b\"isvalid\":true,\"address\":5\x7d,\"error\":null\x7d".toList

/-- The body `{"result":"x","error":{"code":-4,"message":"no keys"}}`. -/
def newAddressErrorBody : GoString :=
  "\x7b\"result\":\"x\",\"error\":\x7b\"code\":-4,\"message\":\"no keys\"\x7d\x7d".toList

/-- The body `{"result":1,"error":null}`. -/
def okBody : GoString :=
  "\x7b\"result\":1,\"error\":null\x7d".toList

/-! General facts about `call` and the typed operations -/


theorem call_calls (env : Env) (c : rpcClient) (account method : GoString) (params : Params)
    (w : World) : (c.call env account method params w).2.calls = w.calls + 1 := by
  unfold rpcClient.call
  simp only []
  split
  · rfl
  · split
    · rfl
    · split
      · rfl
      · split <;> rfl

/-- Either `call` fails before it reaches the HTTP client and sends nothing, or
it sends the one request `c.request account buf` and its outcome is made from
the client's answer to it. -/
theorem call_sent (env : Env) (c : rpcClient) (account method : GoString) (params : Params)
    (w : World) :
    ((c.call env account method params w).2.sent = w.sent ∧
      (c.call env account method params w).1.2 ≠ none) ∨
    ∃ buf, encodeRequest ⟨method, params, env.now, "1.0".toList⟩ = Sum.inr buf ∧
      (c.call env account method params w).2.sent = w.sent ++ [c.request account buf] ∧
      (c.call env account method params w).1 =
        match c.httpClient (c.request account buf) with
        | Sum.inl err => (rpcResponse.zero, some err)
        | Sum.inr resp =>
          match resp.ReadErr with
          | some err => (rpcResponse.zero, some err)
          | none => unmarshalResponse resp.Body rpcResponse.zero := by
  unfold rpcClient.call
  simp only []
  split
  · left; simp
  · rename_i buf hbuf
    split
    · left; simp
    · right
      refine ⟨buf, hbuf, ?_, ?_⟩
      · split
        · rfl
        · split <;> rfl
      · simp only [rpcClient.request]
        split
        · rfl
        · split <;> rfl

/-- A request that `call` sent is the request `c.request account buf` for the
encoded body `buf`. -/
theorem call_sent_request (env : Env) (c : rpcClient) (account method : GoString)
    (params : Params) (w : World) (req : Request)
    (h : (c.call env account method params w).2.sent = w.sent ++ [req]) :
    ∃ buf, encodeRequest ⟨method, params, env.now, "1.0".toList⟩ = Sum.inr buf ∧
      req = c.request account buf ∧
      (c.call env account method params w).1 =
        match c.httpClient req with
        | Sum.inl err => (rpcResponse.zero, some err)
        | Sum.inr resp =>
          match resp.ReadErr with
          | some err => (rpcResponse.zero, some err)
          | none => unmarshalResponse resp.Body rpcResponse.zero := by
  rcases call_sent env c account method params w with ⟨h1, _⟩ | ⟨buf, hbuf, h1, h2⟩
  · rw [h1] at h
    have := congrArg List.length h
    simp at this
  · rw [h1] at h
    have hreq : c.request account buf = req := by
      have := List.append_cancel_left h
      simpa using this
    subst hreq
    exact ⟨buf, hbuf, rfl, h2⟩

/-- Every typed operation leaves the world as its one transport call leaves it. -/
theorem run_world (D : Decls) (env : Env) (b : Bitcoind) (op : Op) (w : World) :
    (op.run D env b w).2 = (op.transport env b w).2 := by
  cases op <;>
    simp only [Op.run, Op.transport, Op.scope, Op.method, Op.params, Bitcoind.LoadWallet,
      Bitcoind.CreateWallet, Bitcoind.GetBalance, Bitcoind.ImportPrivKey,
      Bitcoind.GetNewAddress, Bitcoind.GetPeerInfo, Bitcoind.EncryptWallet,
      Bitcoind.SendToAddress, Bitcoind.DumpPrivKey, Bitcoind.ListDescriptors,
      Bitcoind.GetWalletInfo, Bitcoind.ValidateAddress] <;>
    first
      | rfl
      | (split <;> rfl)

/-- The operations that use `handleError`: the zero value with its error when
there is one, else what the decoder makes of the envelope's result. -/
theorem run_handled (D : Decls) (env : Env) (b : Bitcoind) (op : Op) (w : World)
    (h : op.usesHandleError = true) :
    (op.run D env b w).1 =
      match handleError (op.transport env b w).1.2 (op.transport env b w).1.1 with
      | some e => (op.zeroValue D, some e)
      | none => op.decode D (op.transport env b w).1.1.Result := by
  cases op <;>
    simp only [Op.usesHandleError, Bool.false_eq_true] at h <;>
    simp only [Op.run, Op.transport, Op.scope, Op.method, Op.params, Op.zeroValue, Op.decode,
      Bitcoind.GetBalance, Bitcoind.ImportPrivKey,
      Bitcoind.GetNewAddress, Bitcoind.GetPeerInfo, Bitcoind.EncryptWallet,
      Bitcoind.SendToAddress, Bitcoind.DumpPrivKey, Bitcoind.ListDescriptors,
      Bitcoind.GetWalletInfo, Bitcoind.ValidateAddress] <;>
    (split <;> simp_all)

/-- The operations `LoadWallet` and `CreateWallet` return the error of `call`. -/
theorem run_unhandled (D : Decls) (env : Env) (b : Bitcoind) (op : Op) (w : World)
    (h : op.usesHandleError = false) :
    (op.run D env b w).1 = (Value.nothing, (op.transport env b w).1.2) := by
  cases op <;>
    simp only [Op.usesHandleError, Bool.true_eq_false] at h <;>
    rfl

/-- The error of `call`, when there is one, is the error of the operation. -/
theorem run_transport_error (D : Decls) (env : Env) (b : Bitcoind) (op : Op) (w : World)
    (e : GoError) (h : (op.transport env b w).1.2 = some e) :
    (op.run D env b w).1.2 = some e := by
  cases hu : op.usesHandleError
  · rw [run_unhandled D env b op w hu]
    exact h
  · rw [run_handled D env b op w hu, h]
    rfl

/-! The text of an `RPCError` -/

theorem digitVal_digitChar (d : Nat) (h : d < 10) : digitVal (digitChar d) = d := by
  interval_cases d <;> rfl

theorem digitChar_ne_colon (d : Nat) : digitChar d ≠ ':' := by
  unfold digitChar
  split <;> decide

theorem digitChar_ne_minus (d : Nat) : digitChar d ≠ '-' := by
  unfold digitChar
  split <;> decide

theorem valRev_digitsRev (fuel n : Nat) (h : n ≤ fuel) : valRev (digitsRev fuel n) = n := by
  induction fuel generalizing n with
  | zero =>
    have : n = 0 := by omega
    subst this
    rfl
  | succ f ih =>
    unfold digitsRev
    split
    · rename_i h10
      simp [valRev, digitVal_digitChar n h10]
    · rename_i h10
      have hlt : n % 10 < 10 := Nat.mod_lt _ (by decide)
      simp only [valRev, digitVal_digitChar _ hlt]
      rw [ih (n / 10) (by omega)]
      omega

theorem digitsRev_chars (fuel n : Nat) : ∀ c ∈ digitsRev fuel n, c ≠ ':' ∧ c ≠ '-' := by
  induction fuel generalizing n with
  | zero =>
    intro c hc
    simp [digitsRev] at hc
    subst hc
    exact ⟨digitChar_ne_colon _, digitChar_ne_minus _⟩
  | succ f ih =>
    intro c hc
    unfold digitsRev at hc
    split at hc
    · simp at hc
      subst hc
      exact ⟨digitChar_ne_colon _, digitChar_ne_minus _⟩
    · simp at hc
      rcases hc with hc | hc
      · subst hc
        exact ⟨digitChar_ne_colon _, digitChar_ne_minus _⟩
      · exact ih _ c hc

theorem formatNat_injective (a b : Nat) (h : formatNat a = formatNat b) : a = b := by
  unfold formatNat at h
  have h2 := List.reverse_injective h
  have := congrArg valRev h2
  rwa [valRev_digitsRev a a (le_refl _), valRev_digitsRev b b (le_refl _)] at this

theorem formatNat_chars (a : Nat) : ∀ c ∈ formatNat a, c ≠ ':' ∧ c ≠ '-' := by
  intro c hc
  unfold formatNat at hc
  exact digitsRev_chars a a c (List.mem_reverse.mp hc)

theorem formatInt_chars (i : Int) : ∀ c ∈ formatInt i, c ≠ ':' := by
  intro c hc
  cases i with
  | ofNat n => exact (formatNat_chars n c hc).1
  | negSucc n =>
    simp [formatInt] at hc
    rcases hc with hc | hc
    · subst hc
      decide
    · exact (formatNat_chars _ c hc).1

theorem formatInt_injective (i j : Int) (h : formatInt i = formatInt j) : i = j := by
  cases i with
  | ofNat a =>
    cases j with
    | ofNat b =>
      simp only [formatInt] at h
      rw [formatNat_injective a b h]
    | negSucc b =>
      exfalso
      simp only [formatInt] at h
      have hm : '-' ∈ formatNat a := by rw [h]; simp
      exact (formatNat_chars a _ hm).2 rfl
  | negSucc a =>
    cases j with
    | ofNat b =>
      exfalso
      simp only [formatInt] at h
      have hm : '-' ∈ formatNat b := by rw [← h]; simp
      exact (formatNat_chars b _ hm).2 rfl
    | negSucc b =>
      simp only [formatInt, List.cons.injEq, true_and] at h
      have := formatNat_injective _ _ h
      have : a = b := by omega
      rw [this]

theorem append_sep_cancel (sep : Char) (a b x y : List Char)
    (ha : ∀ c ∈ a, c ≠ sep) (hb : ∀ c ∈ b, c ≠ sep)
    (h : a ++ sep :: x = b ++ sep :: y) : a = b ∧ x = y := by
  induction a generalizing b with
  | nil =>
    cases b with
    | nil => simpa using h
    | cons c cs =>
      exfalso
      simp at h
      exact hb c (by simp) h.1.symm
  | cons d ds ih =>
    cases b with
    | nil =>
      exfalso
      simp at h
      exact ha d (by simp) h.1
    | cons c cs =>
      simp only [List.cons_append, List.cons.injEq] at h
      obtain ⟨h1, h2⟩ := h
      have := ih cs (fun c hc => ha c (by simp [hc])) (fun c hc => hb c (by simp [hc])) h2
      exact ⟨by rw [h1, this.1], this.2⟩

/-- C10.  The text `e.Error()` of an `RPCError` is the decimal rendering of
`e.Code` (the digits of its absolute value, after a `-` when it is negative),
then `": "`, then `e.Message`; and the rendering is injective: two `RPCError`s
with the same text have the same code and the same message. -/
theorem rpcError_text (e : RPCError) :
    e.Error = formatInt e.Code ++ [':', ' '] ++ e.Message ∧
    formatInt e.Code = (if e.Code < 0 then ['-'] else []) ++ formatNat e.Code.natAbs ∧
    ∀ e2 : RPCError, e.Error = e2.Error → e.Code = e2.Code ∧ e.Message = e2.Message := by
  refine ⟨rfl, ?_, ?_⟩
  · cases h : e.Code with
    | ofNat n => simp [formatInt]
    | negSucc n => simp [formatInt, Int.negSucc_lt_zero]
  · intro e2 h
    unfold RPCError.Error at h
    have h2 : formatInt e.Code ++ ':' :: (' ' :: e.Message) =
        formatInt e2.Code ++ ':' :: (' ' :: e2.Message) := by
      simpa using h
    have := append_sep_cancel ':' _ _ _ _ (formatInt_chars _) (formatInt_chars _) h2
    refine ⟨formatInt_injective _ _ this.1, ?_⟩
    simpa using this.2

theorem rpcError_text_example :
    RPCError.Error ⟨-18, "Wallet not found".toList⟩ = "-18: Wallet not found".toList ∧
    RPCError.Error ⟨0, []⟩ = "0: ".toList ∧
    RPCError.Error ⟨1234567890, "x".toList⟩ = "1234567890: x".toList := by
  refine ⟨?_, ?_, ?_⟩ <;> decide

/-! The RPC error of the envelope -/

/-- The operations that use `handleError` return the `RPCError` of an envelope
that `call` decoded without error, whatever its `result`, and the zero value. -/
theorem handled_rpc_error (D : Decls) (env : Env) (b : Bitcoind) (op : Op) (w : World)
    (rr : rpcResponse) (e : RPCError) (hu : op.usesHandleError = true)
    (hcall : (op.transport env b w).1 = (rr, none)) (he : rr.Err = some e) :
    (op.run D env b w).1 = (op.zeroValue D, some (GoError.rpc e)) := by
  rw [run_handled D env b op w hu, hcall]
  simp only [handleError, he]

/-- C1 (evaluation of the code at the failing input).  The node answers
`loadwallet` (and `createwallet`) with an envelope of non-null `error`
`{code: -18, message: "Wallet not found"}`.  The body decodes to an envelope whose
`Err` is that `RPCError`, `call` returns it with a nil error, and `LoadWallet`
and `CreateWallet` return a nil error: they drop the envelope without passing
it through `handleError`, where `ImportPrivKey` on the same answer returns the
`RPCError`. -/
theorem loadWallet_createWallet_drop_rpc_error :
    (((New (servingEnv rpcErrorBody)
        "127.0.0.1:8332".toList "u".toList "p".toList).1.client.call
      (servingEnv rpcErrorBody)
      [] "loadwallet".toList (some [Param.string "w".toList]) World.init).1 =
        (⟨1, "null".toList, some ⟨-18, "Wallet not found".toList⟩⟩, none)) ∧
    ((New (servingEnv rpcErrorBody)
        "127.0.0.1:8332".toList "u".toList "p".toList).1.LoadWallet
      (servingEnv rpcErrorBody)
      "w".toList World.init).1 = none ∧
    ((New (servingEnv rpcErrorBody)
        "127.0.0.1:8332".toList "u".toList "p".toList).1.CreateWallet
      (servingEnv rpcErrorBody)
      "w".toList World.init).1 = none ∧
    ((New (servingEnv rpcErrorBody)
        "127.0.0.1:8332".toList "u".toList "p".toList).1.ImportPrivKey
      (servingEnv rpcErrorBody)
      "k".toList "w".toList false World.init).1 =
        some (GoError.rpc ⟨-18, "Wallet not found".toList⟩) := by
  refine ⟨?_, ?_, ?_, ?_⟩ <;> rfl

theorem wallet_infix_http (addr : GoString) :
    "/wallet/".toList <:+: ("http://".toList ++ addr) ↔ "/wallet/".toList <:+: '/' :: addr := by
  show ['/', 'w', 'a', 'l', 'l', 'e', 't', '/'] <:+:
      'h' :: 't' :: 't' :: 'p' :: ':' :: '/' :: '/' :: addr ↔
    ['/', 'w', 'a', 'l', 'l', 'e', 't', '/'] <:+: '/' :: addr
  rw [List.infix_cons_iff, List.infix_cons_iff, List.infix_cons_iff, List.infix_cons_iff,
    List.infix_cons_iff, List.infix_cons_iff]
  simp [List.cons_prefix_cons]

/-- C4 (counterexample).  With the client address `node/wallet/w` and an empty
wallet scope, the one request that `call` sends has the URL
`http://node/wallet/w`, which contains a `/wallet/` segment. -/
theorem empty_scope_url_contains_wallet :
    (((New (servingEnv "{}".toList) "node/wallet/w".toList [] []).1.client.call
        (servingEnv "{}".toList) [] "getpeerinfo".toList none World.init).2.sent.map
          Request.URL = ["http://node/wallet/w".toList]) ∧
      "/wallet/".toList <:+: "http://node/wallet/w".toList :=
  ⟨rfl, ⟨"http://node".toList, "w".toList, rfl⟩⟩

/-- C4 (amended).  The URL of a request that `call` sends is `http://<addr>`
followed, when the wallet scope `account` is not empty, by `/wallet/<account>`:
with a scope the URL is `"http://" + addr + "/wallet/" + account` and contains
`"/wallet/" + account`; without one it is exactly `"http://" + addr`, nothing is
appended, and it contains `/wallet/` exactly when `"/" + addr` does. -/
theorem call_url (env : Env) (c : rpcClient) (account method : GoString) (params : Params)
    (w : World) (req : Request)
    (h : (c.call env account method params w).2.sent = w.sent ++ [req]) :
    (account ≠ [] →
      req.URL = "http://".toList ++ c.addr ++ "/wallet/".toList ++ account ∧
      ("/wallet/".toList ++ account) <:+: req.URL) ∧
    (account = [] →
      req.URL = "http://".toList ++ c.addr ∧
      ("/wallet/".toList <:+: req.URL ↔ "/wallet/".toList <:+: '/' :: c.addr)) := by
  obtain ⟨buf, _, hreq, _⟩ := call_sent_request env c account method params w req h
  have hurl : req.URL = if account.length > 0 then
      "http://".toList ++ c.addr ++ ("/wallet/".toList ++ account)
      else "http://".toList ++ c.addr := by
    rw [hreq]
    unfold rpcClient.request
    simp only []
    split <;> split <;> rfl
  constructor
  · intro hne
    have hpos : account.length > 0 := List.length_pos.mpr hne
    rw [if_pos hpos] at hurl
    refine ⟨by rw [hurl]; simp only [List.append_assoc], ?_⟩
    rw [hurl]
    exact ⟨"http://".toList ++ c.addr, [], by simp⟩
  · intro he
    subst he
    rw [if_neg (by simp)] at hurl
    refine ⟨hurl, ?_⟩
    rw [hurl]
    exact wallet_infix_http c.addr

/-- C4 (amended), at an instance: the scope `main` on the address
`127.0.0.1:8332`; the request sent has the URL
`http://127.0.0.1:8332/wallet/main`. -/
theorem call_url_witness :
    ("/wallet/".toList ++ "main".toList) <:+: "http://127.0.0.1:8332/wallet/main".toList :=
  ((call_url (servingEnv "{}".toList)
    (New (servingEnv "{}".toList) "127.0.0.1:8332".toList [] []).1.client
    "main".toList "getwalletinfo".toList none World.init
    ⟨"POST".toList, "http://127.0.0.1:8332/wallet/main".toList,
      [("Content-Type".toList, "application/json;charset=utf-8".toList),
        ("Accept".toList, "application/json".toList)],
      Json.obj [("method".toList, Json.str "getwalletinfo".toList),
        ("params".toList, Json.null), ("id".toList, Json.int 1700000000000000000),
        ("jsonrpc".toList, Json.str "1.0".toList)]⟩ rfl).1 (by decide)).2

/-! Basic authentication -/

theorem b64Val_b64Char (i : Nat) (h : i < 64) :
    b64Val (b64Char i) = some i ∧ b64Char i ≠ '=' := by
  interval_cases i <;> decide

/-- Decoding the base64 text of bytes gives the bytes back. -/
theorem base64Decode_encode :
    ∀ bs : List Nat, (∀ x ∈ bs, x < 256) → base64Decode (base64Encode bs) = some bs
  | [], _ => rfl
  | [a], h => by
    have ha : a < 256 := h a (by simp)
    have h1 := b64Val_b64Char (a / 4) (by omega)
    have h2 := b64Val_b64Char (a % 4 * 16) (by omega)
    simp only [base64Encode, base64Decode, h1.1, h2.1, and_self, if_true]
    congr 2
    omega
  | [a, b], h => by
    have ha : a < 256 := h a (by simp)
    have hb : b < 256 := h b (by simp)
    have h1 := b64Val_b64Char (a / 4) (by omega)
    have h2 := b64Val_b64Char (a % 4 * 16 + b / 16) (by omega)
    have h3 := b64Val_b64Char (b % 16 * 4) (by omega)
    simp only [base64Encode, base64Decode, h1.1, h2.1, h3.1, h3.2, and_self, if_true, false_and,
      if_false]
    congr 2
    · omega
    · congr 1
      omega
  | a :: b :: c :: rest, h => by
    have ha : a < 256 := h a (by simp)
    have hb : b < 256 := h b (by simp)
    have hc : c < 256 := h c (by simp)
    have h1 := b64Val_b64Char (a / 4) (by omega)
    have h2 := b64Val_b64Char (a % 4 * 16 + b / 16) (by omega)
    have h3 := b64Val_b64Char (b % 16 * 4 + c / 64) (by omega)
    have h4 := b64Val_b64Char (c % 64) (by omega)
    have ih := base64Decode_encode rest (fun x hx => h x (by simp [hx]))
    simp only [base64Encode, base64Decode, h1.1, h2.1, h3.1, h4.1, h3.2, h4.2, ih, false_and,
      if_false]
    congr 2
    · omega
    · congr 1
      · omega
      · congr 1
        omega

theorem utf8Bytes_lt (c : Char) : ∀ x ∈ utf8Bytes c, x < 256 := by
  have hv : c.toNat < 0x110000 := by
    have := c.valid
    simp only [UInt32.isValidChar, Nat.isValidChar] at this
    show c.val.toNat < 0x110000
    omega
  intro x hx
  unfold utf8Bytes at hx
  split at hx
  · simp at hx
    omega
  · split at hx
    · simp at hx
      omega
    · split at hx
      · simp at hx
        omega
      · simp at hx
        omega

theorem toBytes_lt (s : GoString) : ∀ x ∈ toBytes s, x < 256 := by
  induction s with
  | nil => intro x hx; cases hx
  | cons c cs ih =>
    intro x hx
    simp only [toBytes, List.mem_append] at hx
    rcases hx with hx | hx
    · exact utf8Bytes_lt c x hx
    · exact ih x hx

/-- A byte 58 in the UTF-8 bytes of a character: the character is the colon. -/
theorem utf8Bytes_colon (c : Char) (h : 58 ∈ utf8Bytes c) : c = ':' := by
  unfold utf8Bytes at h
  split at h
  · simp at h
    have : Char.ofNat c.toNat = c := Char.ofNat_toNat c
    rw [← h] at this
    exact this.symm
  · exfalso
    split at h
    · simp at h
      omega
    · split at h
      · simp at h
        omega
      · simp at h
        omega

theorem toBytes_colon (s : GoString) (h : ':' ∉ s) : 58 ∉ toBytes s := by
  induction s with
  | nil => simp [toBytes]
  | cons c cs ih =>
    intro hx
    simp only [toBytes, List.mem_append] at hx
    rcases hx with hx | hx
    · exact h (by rw [utf8Bytes_colon c hx]; simp)
    · exact ih (fun hc => h (by simp [hc])) hx

theorem cutColon_append (u p : List Nat) (h : 58 ∉ u) :
    cutColon (u ++ 58 :: p) = some (u, p) := by
  induction u with
  | nil => simp [cutColon]
  | cons x xs ih =>
    have hx : x ≠ 58 := fun hx => h (by simp [hx])
    have hxs : 58 ∉ xs := fun hm => h (by simp [hm])
    simp [cutColon, hx, ih hxs]

/-- What a receiver reads from the header that `SetBasicAuth` writes: the bytes
of `username:password`, cut at their first colon. -/
theorem readBasicAuth_basic (u p : List Nat) (hu : ∀ x ∈ u, x < 256) (hp : ∀ x ∈ p, x < 256) :
    readBasicAuth ("Basic ".toList ++ basicAuth u p) = cutColon (u ++ 58 :: p) := by
  have hlt : ∀ x ∈ u ++ 58 :: p, x < 256 := by
    intro x hx
    simp only [List.mem_append, List.mem_cons] at hx
    rcases hx with hx | hx | hx
    · exact hu x hx
    · omega
    · exact hp x hx
  have htake : (("Basic ".toList ++ basicAuth u p).take 6).map lowerASCII = "basic ".toList := rfl
  have hdrop : ("Basic ".toList ++ basicAuth u p).drop 6 = basicAuth u p := rfl
  unfold readBasicAuth
  rw [if_pos htake, hdrop]
  unfold basicAuth
  rw [base64Decode_encode _ hlt]

theorem mem_takeWhile_append (p : Char → Bool) (x : Char) (a b : List Char)
    (h : x ∈ (a ++ b).takeWhile p) : x ∈ a ∨ x ∈ b.takeWhile p := by
  induction a with
  | nil => exact Or.inr h
  | cons c cs ih =>
    simp only [List.cons_append, List.takeWhile_cons] at h
    split at h
    · simp only [List.mem_cons] at h
      rcases h with h | h
      · exact Or.inl (by simp [h])
      · rcases ih h with h | h
        · exact Or.inl (by simp [h])
        · exact Or.inr h
    · cases h

/-- A URL that `call` builds from an address without `@` has no userinfo. -/
theorem urlUserinfo_none (addr tail : GoString) (h : '@' ∉ addr)
    (ht : tail = [] ∨ ∃ t, tail = '/' :: t) :
    urlUserinfo ("http://".toList ++ (addr ++ tail)) = none := by
  have hurl : "http://".toList ++ (addr ++ tail) =
      'h' :: 't' :: 't' :: 'p' :: ':' :: '/' :: '/' :: (addr ++ tail) := rfl
  unfold urlUserinfo
  rw [hurl]
  simp only [urlAuthority]
  have hno : '@' ∉ (addr ++ tail).takeWhile (fun c => c != '/' && c != '?' && c != '#') := by
    intro hm
    rcases mem_takeWhile_append _ _ _ _ hm with hm | hm
    · exact h hm
    · rcases ht with ht | ⟨t, ht⟩
      · subst ht
        cases hm
      · subst ht
        simp [List.takeWhile_cons] at hm
  rw [if_neg hno]

/-- The headers of the request that `call` prepares. -/
theorem request_header (c : rpcClient) (account : GoString) (buf : Json) :
    (c.request account buf).Header =
      [("Content-Type".toList, "application/json;charset=utf-8".toList),
        ("Accept".toList, "application/json".toList)] ++
      (if c.user.length > 0 && c.pswd.length > 0 then
        [("Authorization".toList,
          "Basic ".toList ++ basicAuth (toBytes c.user) (toBytes c.pswd))]
      else []) := by
  have h1 : "Content-Type".toList ≠ "Authorization".toList := by decide
  have h2 : "Accept".toList ≠ "Authorization".toList := by decide
  unfold rpcClient.request
  simp only []
  split
  · simp [Request.SetBasicAuth, Request.setHeader, Request.addHeader, h1, h2]
  · simp [Request.addHeader]

theorem request_url (c : rpcClient) (account : GoString) (buf : Json) :
    (c.request account buf).URL =
      "http://".toList ++ (c.addr ++ (if account.length > 0 then "/wallet/".toList ++ account
        else [])) := by
  unfold rpcClient.request
  simp only []
  split <;> split <;> simp [Request.SetBasicAuth, Request.setHeader, Request.addHeader]

/-- C5 (counterexample).  With the address `alice:secret@127.0.0.1:8332` and an
empty user and password, `call` sets no `Authorization` header, and the request
goes on the wire with `Authorization: Basic YWxpY2U6c2VjcmV0`, made by `net/http`
from the userinfo of the URL.  With the user `a:b` and the password `c`, the
request carries `Authorization: Basic YTpiOmM=`, from which a receiver reads
the user name `a` and the password `b:c`, not `(a:b, c)`. -/
theorem authorization_not_exactly_credentials :
    (((New (servingEnv okBody) "alice:secret@127.0.0.1:8332".toList [] []).1.client.call
        (servingEnv okBody) [] "getpeerinfo".toList none World.init).2.sent.map
          (fun r => (r.headerValues "Authorization".toList,
            (wireRequest r).headerValues "Authorization".toList)) =
      [([], ["Basic YWxpY2U6c2VjcmV0".toList])]) ∧
    (((New (servingEnv okBody) "127.0.0.1:8332".toList "a:b".toList "c".toList).1.client.call
        (servingEnv okBody) [] "getpeerinfo".toList none World.init).2.sent.map
          (fun r => ((wireRequest r).headerValues "Authorization".toList,
            readBasicAuth ((wireRequest r).headerGet "Authorization".toList))) =
      [(["Basic YTpiOmM=".toList], some (toBytes "a".toList, toBytes "b:c".toList))]) ∧
    (toBytes "a".toList, toBytes "b:c".toList) ≠ (toBytes "a:b".toList, toBytes "c".toList) := by
  refine ⟨?_, ?_, ?_⟩
  · rfl
  · rfl
  · decide

/-- C5 (amended).  For a client built by `New(addr, user, pswd)` and every
request that `call` hands to the HTTP client: when both `user` and `pswd` are
non-empty, the request has the one header
`Authorization: Basic base64(user + ":" + pswd)` that `SetBasicAuth(user, pswd)`
writes, it goes on the wire as it is, and a receiver reads from the header the
bytes of `user + ":" + pswd` cut at their first colon, which is exactly
`(user, pswd)` when `user` contains no colon.  When either is empty, `call` sets
no `Authorization` header; the request then goes on the wire as it is when its
URL has no userinfo, as is the case when `addr` contains no `@`, and with the
header `Basic base64(username:password)` of the userinfo otherwise. -/
theorem call_basic_auth (env : Env) (addr user pswd account method : GoString)
    (params : Params) (w : World) (req : Request)
    (h : ((New env addr user pswd).1.client.call env account method params w).2.sent =
      w.sent ++ [req]) :
    (user ≠ [] ∧ pswd ≠ [] →
      req.headerValues "Authorization".toList =
        ["Basic ".toList ++ basicAuth (toBytes user) (toBytes pswd)] ∧
      wireRequest req = req ∧
      readBasicAuth (req.headerGet "Authorization".toList) =
        cutColon (toBytes user ++ 58 :: toBytes pswd) ∧
      (':' ∉ user →
        readBasicAuth (req.headerGet "Authorization".toList) =
          some (toBytes user, toBytes pswd))) ∧
    (user = [] ∨ pswd = [] →
      req.headerValues "Authorization".toList = [] ∧
      (urlUserinfo req.URL = none → wireRequest req = req) ∧
      ('@' ∉ addr → urlUserinfo req.URL = none) ∧
      (∀ u p, urlUserinfo req.URL = some (u, p) →
        (wireRequest req).headerValues "Authorization".toList =
          ["Basic ".toList ++ basicAuth u p])) := by
  obtain ⟨buf, _, hreq, _⟩ :=
    call_sent_request env (New env addr user pswd).1.client account method params w req h
  have hhead := request_header (New env addr user pswd).1.client account buf
  have hurl := request_url (New env addr user pswd).1.client account buf
  rw [← hreq] at hhead hurl
  simp only [New] at hhead hurl
  have h1 : "Content-Type".toList ≠ "Authorization".toList := by decide
  have h2 : "Accept".toList ≠ "Authorization".toList := by decide
  constructor
  · rintro ⟨hu, hp⟩
    have hpos : (user.length > 0 && pswd.length > 0) = true := by
      simp [List.length_pos, hu, hp]
    rw [if_pos hpos] at hhead
    have hvals : req.headerValues "Authorization".toList =
        ["Basic ".toList ++ basicAuth (toBytes user) (toBytes pswd)] := by
      simp [Request.headerValues, hhead, h1, h2]
    have hget : req.headerGet "Authorization".toList =
        "Basic ".toList ++ basicAuth (toBytes user) (toBytes pswd) := by
      unfold Request.headerGet
      rw [hvals]
      rfl
    have hread := readBasicAuth_basic (toBytes user) (toBytes pswd) (toBytes_lt user)
      (toBytes_lt pswd)
    refine ⟨hvals, ?_, ?_, ?_⟩
    · unfold wireRequest
      split
      · have hne : req.headerGet "Authorization".toList ≠ [] := by
          rw [hget]
          simp
        rw [if_neg hne]
      · rfl
    · rw [hget, hread]
    · intro hc
      rw [hget, hread]
      exact cutColon_append _ _ (toBytes_colon user hc)
  · intro he
    have hneg : ¬ ((user.length > 0 && pswd.length > 0) = true) := by
      rcases he with he | he <;> simp [he]
    rw [if_neg hneg] at hhead
    have hvals : req.headerValues "Authorization".toList = [] := by
      simp [Request.headerValues, hhead, h1, h2]
    have hget : req.headerGet "Authorization".toList = [] := by
      unfold Request.headerGet
      rw [hvals]
      rfl
    refine ⟨hvals, ?_, ?_, ?_⟩
    · intro hn
      unfold wireRequest
      rw [hn]
    · intro hat
      rw [hurl]
      apply urlUserinfo_none addr _ hat
      split
      · exact Or.inr ⟨_, rfl⟩
      · exact Or.inl rfl
    · intro u p hup
      unfold wireRequest
      rw [hup]
      simp only [hget, if_true]
      simp [Request.headerValues, Request.setHeader, hhead, h1, h2]

/-- C5 (amended), at an instance: user `alice`, password `secret`; the request
carries `Authorization: Basic YWxpY2U6c2VjcmV0`. -/
theorem call_basic_auth_witness :
    (⟨"POST".toList, "http://127.0.0.1:8332".toList,
      [("Content-Type".toList, "application/json;charset=utf-8".toList),
        ("Accept".toList, "application/json".toList),
        ("Authorization".toList, "Basic YWxpY2U6c2VjcmV0".toList)],
      Json.obj [("method".toList, Json.str "getpeerinfo".toList),
        ("params".toList, Json.null), ("id".toList, Json.int 1700000000000000000),
        ("jsonrpc".toList, Json.str "1.0".toList)]⟩ : Request).headerValues
        "Authorization".toList = ["Basic YWxpY2U6c2VjcmV0".toList] :=
  ((call_basic_auth (servingEnv "{}".toList) "127.0.0.1:8332".toList "alice".toList
    "secret".toList [] "getpeerinfo".toList none World.init
    ⟨"POST".toList, "http://127.0.0.1:8332".toList,
      [("Content-Type".toList, "application/json;charset=utf-8".toList),
        ("Accept".toList, "application/json".toList),
        ("Authorization".toList, "Basic YWxpY2U6c2VjcmV0".toList)],
      Json.obj [("method".toList, Json.str "getpeerinfo".toList),
        ("params".toList, Json.null), ("id".toList, Json.int 1700000000000000000),
        ("jsonrpc".toList, Json.str "1.0".toList)]⟩ rfl).1 ⟨by decide, by decide⟩).1

/-- When `call` sends nothing, its error is the error of the encoder or of
`http.NewRequest`. -/
theorem call_unsent (env : Env) (c : rpcClient) (account method : GoString) (params : Params)
    (w : World) (e : GoError)
    (hs : (c.call env account method params w).2.sent = w.sent)
    (he : (c.call env account method params w).1.2 = some e) :
    encodeRequest ⟨method, params, env.now, "1.0".toList⟩ = Sum.inl e ∨
      ∃ url, env.newRequestErr url = some e := by
  unfold rpcClient.call at hs he
  simp only [] at hs he
  split at he
  · rename_i err herr
    left
    rw [herr]
    exact congrArg Sum.inl (Option.some.inj he)
  · split at he
    · rename_i err herr
      right
      exact ⟨_, by rw [herr]; exact he⟩
    · exfalso
      rename_i buf hbuf _ hnew
      rw [hbuf] at hs
      simp only [hnew] at hs
      have hlen : ∀ x : (rpcResponse × Option GoError) × World, x.2.sent = w.sent →
          x.2.sent.length = w.sent.length := fun x hx => by rw [hx]
      split at hs
      · have := hlen _ hs
        simp at this
      · split at hs
        · have := hlen _ hs
          simp at this
        · have := hlen _ hs
          simp at this

/-- C6.  If the transport call of a typed operation fails with the error `e`
(from request encoding, request construction, the HTTP round trip, reading the
body, or decoding it), the operation returns exactly `e`; it has entered
`rpcClient.call` exactly once, and it has handed exactly one request to the
HTTP client, or none, which happens only when `e` is the error of the encoder
or of `http.NewRequest`: nothing is retried. -/
theorem transport_error_returned (D : Decls) (env : Env) (b : Bitcoind) (op : Op) (w : World)
    (e : GoError) (h : (op.transport env b w).1.2 = some e) :
    (op.run D env b w).1.2 = some e ∧
    (op.run D env b w).2.calls = w.calls + 1 ∧
    ((∃ req, (op.run D env b w).2.sent = w.sent ++ [req]) ∨
      ((op.run D env b w).2.sent = w.sent ∧
        (encodeRequest ⟨op.method, op.params, env.now, "1.0".toList⟩ = Sum.inl e ∨
          ∃ url, env.newRequestErr url = some e))) := by
  refine ⟨run_transport_error D env b op w e h, ?_, ?_⟩
  · rw [run_world]
    exact call_calls env b.client _ _ _ w
  · rw [run_world]
    rcases call_sent env b.client op.scope op.method op.params w with ⟨h1, _⟩ | ⟨buf, _, h1, _⟩
    · exact Or.inr ⟨h1, call_unsent env b.client op.scope op.method op.params w e h1 h⟩
    · exact Or.inl ⟨_, h1⟩

/-- C6, at an instance: the round trip of `ImportPrivKey` fails with
`connection refused`. -/
theorem transport_error_returned_witness :
    ((Op.ImportPrivKey "k".toList "w".toList false).run unitDecls
      (failingEnv (GoError.other "connection refused".toList))
      (New (failingEnv (GoError.other "connection refused".toList))
        "127.0.0.1:8332".toList [] []).1 World.init).1.2 =
      some (GoError.other "connection refused".toList) :=
  (transport_error_returned unitDecls (failingEnv (GoError.other "connection refused".toList))
    (New (failingEnv (GoError.other "connection refused".toList)) "127.0.0.1:8332".toList [] []).1
    (Op.ImportPrivKey "k".toList "w".toList false) World.init
    (GoError.other "connection refused".toList) rfl).1

/-- C7.  If the body of the HTTP response to the request of a typed operation
is read without error and is not valid JSON, `rpcClient.call` returns the
decode error `*json.SyntaxError`, and the operation returns that non-nil
error. -/
theorem invalid_body_is_error (D : Decls) (env : Env) (b : Bitcoind) (op : Op) (w : World)
    (req : Request) (resp : Response)
    (hsent : (op.transport env b w).2.sent = w.sent ++ [req])
    (hresp : b.client.httpClient req = Sum.inr resp)
    (hread : resp.ReadErr = none)
    (hbad : parseJSON resp.Body = none) :
    (op.transport env b w).1.2 = some GoError.jsonSyntax ∧
    (op.run D env b w).1.2 = some GoError.jsonSyntax ∧
    (op.run D env b w).1.2 ≠ none := by
  obtain ⟨buf, _, _, hout⟩ :=
    call_sent_request env b.client op.scope op.method op.params w req hsent
  have ht : (op.transport env b w).1.2 = some GoError.jsonSyntax := by
    unfold Op.transport
    rw [hout, hresp]
    simp only [hread, unmarshalResponse, hbad]
  have hr := run_transport_error D env b op w _ ht
  exact ⟨ht, hr, by rw [hr]; simp⟩

/-- C7, at an instance: the node answers `GetBalance` with the text
`<html>502</html>`. -/
theorem invalid_body_is_error_witness :
    ((Op.GetBalance "main".toList 6).run unitDecls (servingEnv "<html>502</html>".toList)
      (New (servingEnv "<html>502</html>".toList) "127.0.0.1:8332".toList [] []).1
      World.init).1.2 = some GoError.jsonSyntax :=
  (invalid_body_is_error unitDecls (servingEnv "<html>502</html>".toList)
    (New (servingEnv "<html>502</html>".toList) "127.0.0.1:8332".toList [] []).1
    (Op.GetBalance "main".toList 6) World.init
    ⟨"POST".toList, "http://127.0.0.1:8332/wallet/main".toList,
      [("Content-Type".toList, "application/json;charset=utf-8".toList),
        ("Accept".toList, "application/json".toList)],
      Json.obj [("method".toList, Json.str "getbalance".toList),
        ("params".toList, Json.arr [Json.str "*".toList, Json.int 6]),
        ("id".toList, Json.int 1700000000000000000),
        ("jsonrpc".toList, Json.str "1.0".toList)]⟩
    ⟨200, [], "<html>502</html>".toList, none⟩ rfl rfl rfl rfl).2.1

theorem marshalList_length (l : List Param) (js : List Json)
    (h : marshalList l = Sum.inr js) : js.length = l.length := by
  induction l generalizing js with
  | nil =>
    simp only [marshalList] at h
    have hj := Sum.inr.inj h
    subst hj
    rfl
  | cons q qs ih =>
    simp only [marshalList] at h
    split at h
    · cases h
    · split at h
      · cases h
      · rename_i js2 hjs2
        rw [← Sum.inr.inj h]
        simp [ih js2 hjs2]

/-- C8.  The body of every request that `call` sends for the method `m` and
the parameters `p` is the JSON object with exactly the four members `method`,
`params`, `id`, `jsonrpc`, in which `method` is the string `m`, `params` is the
encoding of `p` (`null` when `p` is nil, an array with one element for each
parameter of a list), `id` is the integer read from the clock, and `jsonrpc` is
the string `1.0`. -/
theorem call_body (env : Env) (c : rpcClient) (account m : GoString) (p : Params)
    (w : World) (req : Request)
    (h : (c.call env account m p w).2.sent = w.sent ++ [req]) :
    ∃ ps, marshalParams p = Sum.inr ps ∧
      req.Body = Json.obj [("method".toList, Json.str m), ("params".toList, ps),
        ("id".toList, Json.int env.now), ("jsonrpc".toList, Json.str "1.0".toList)] ∧
      (p = none → ps = Json.null) ∧
      (∀ l, p = some l → ∃ js, marshalList l = Sum.inr js ∧ ps = Json.arr js ∧
        js.length = l.length) := by
  obtain ⟨buf, hbuf, hreq, _⟩ := call_sent_request env c account m p w req h
  have hbody : req.Body = buf := by
    rw [hreq]
    unfold rpcClient.request
    simp only []
    split <;> rfl
  unfold encodeRequest at hbuf
  simp only [] at hbuf
  split at hbuf
  · cases hbuf
  · rename_i ps hps
    refine ⟨ps, hps, ?_, ?_, ?_⟩
    · rw [hbody]
      exact (Sum.inr.inj hbuf).symm
    · intro hp
      subst hp
      simp only [marshalParams] at hps
      exact (Sum.inr.inj hps).symm
    · intro l hl
      subst hl
      simp only [marshalParams] at hps
      split at hps
      · cases hps
      · rename_i js hjs
        exact ⟨js, hjs, (Sum.inr.inj hps).symm, marshalList_length l js hjs⟩

/-- C8, at an instance: `getbalance` with the parameters `["*", 6]`. -/
theorem call_body_witness :
    ∃ ps, marshalParams (some [Param.string "*".toList, Param.uint64 6]) = Sum.inr ps ∧
      ps = Json.arr [Json.str "*".toList, Json.int 6] := by
  obtain ⟨ps, h1, h2, _⟩ := call_body (servingEnv "{}".toList)
    (New (servingEnv "{}".toList) "127.0.0.1:8332".toList [] []).1.client
    "main".toList "getbalance".toList (some [Param.string "*".toList, Param.uint64 6])
    World.init
    ⟨"POST".toList, "http://127.0.0.1:8332/wallet/main".toList,
      [("Content-Type".toList, "application/json;charset=utf-8".toList),
        ("Accept".toList, "application/json".toList)],
      Json.obj [("method".toList, Json.str "getbalance".toList),
        ("params".toList, Json.arr [Json.str "*".toList, Json.int 6]),
        ("id".toList, Json.int 1700000000000000000),
        ("jsonrpc".toList, Json.str "1.0".toList)]⟩ rfl
  refine ⟨ps, h1, ?_⟩
  have h3 : (Json.obj [("method".toList, Json.str "getbalance".toList),
        ("params".toList, Json.arr [Json.str "*".toList, Json.int 6]),
        ("id".toList, Json.int 1700000000000000000),
        ("jsonrpc".toList, Json.str "1.0".toList)]) = _ := h2
  injection h3 with h4
  injection h4 with _ h5
  injection h5 with h6 _
  injection h6 with _ h7
  exact h7.symm

/-- Two clients that differ only in their HTTP client, whose answers to every
request agree in everything but the status code, get the same outcome from
`call`: it never reads the status code. -/
theorem call_same_body (env : Env) (c1 c2 : rpcClient) (account method : GoString)
    (params : Params) (w : World)
    (haddr : c1.addr = c2.addr) (huser : c1.user = c2.user) (hpswd : c1.pswd = c2.pswd)
    (hsame : ∀ req,
      Sum.map id (fun r : Response => (r.Body, r.ReadErr)) (c1.httpClient req) =
        Sum.map id (fun r : Response => (r.Body, r.ReadErr)) (c2.httpClient req)) :
    c1.call env account method params w = c2.call env account method params w := by
  rcases c1 with ⟨a1, u1, p1, k1⟩
  rcases c2 with ⟨a2, u2, p2, k2⟩
  simp only at haddr huser hpswd hsame
  subst haddr huser hpswd
  unfold rpcClient.call
  simp only []
  split
  · rfl
  · split
    · rfl
    · generalize (if (u1.length > 0 && p1.length > 0) = true then _ else _ : Request) = req
      have key := hsame req
      cases h1 : k1 req <;> cases h2 : k2 req <;> simp only [h1, h2, Sum.map_inl, Sum.map_inr,
        id, Sum.inl.injEq, Sum.inr.injEq, Prod.mk.injEq, reduceCtorEq] at key
      · rw [key]
      · simp only [key.1, key.2]

/-! `strconv.ParseFloat` on decimal numerals -/

theorem isDigit_digitChar (d : Fin 10) : isDigit (digitChar d.val) = true := by
  fin_cases d <;> rfl

theorem digitVal_digitChar_fin (d : Fin 10) : digitVal (digitChar d.val) = d.val := by
  fin_cases d <;> rfl

theorem spanDigits_digitChars (ds : List (Fin 10)) (rest : GoString)
    (h : ∀ c r, rest = c :: r → isDigit c = false) :
    spanDigits (digitChars ds ++ rest) = (digitChars ds, rest) := by
  induction ds with
  | nil =>
    cases rest with
    | nil => rfl
    | cons c r => simp [digitChars, spanDigits, h c r rfl]
  | cons d ds ih =>
    have hcons : digitChars (d :: ds) ++ rest = digitChar d.val :: (digitChars ds ++ rest) := rfl
    rw [hcons, spanDigits, if_pos (isDigit_digitChar d), ih]
    rfl

theorem digitsValue_digitChars_aux (ds : List (Fin 10)) (a : Nat) :
    (digitChars ds).foldl (fun a c => 10 * a + digitVal c) a =
      ds.foldl (fun a d => 10 * a + d.val) a := by
  induction ds generalizing a with
  | nil => rfl
  | cons d ds ih =>
    simp only [digitChars, List.map_cons, List.foldl_cons, digitVal_digitChar_fin] at ih ⊢
    exact ih _

theorem digitsValue_digitChars (ds : List (Fin 10)) :
    digitsValue (digitChars ds) = digitsNat ds :=
  digitsValue_digitChars_aux ds 0

theorem digitChars_append (a b : List (Fin 10)) :
    digitChars (a ++ b) = digitChars a ++ digitChars b := by
  simp [digitChars]

theorem digitChars_length (a : List (Fin 10)) : (digitChars a).length = a.length := by
  simp [digitChars]

/-- A digit is none of the characters that begin a sign, a point, an infinity
or a NaN, and its lower case is not `i`. -/
theorem digitChar_head (d : Fin 10) :
    digitChar d.val ≠ '+' ∧ digitChar d.val ≠ '-' ∧ digitChar d.val ≠ 'i' ∧
    digitChar d.val ≠ 'I' ∧ digitChar d.val ≠ 'n' ∧ digitChar d.val ≠ 'N' ∧
    lowerASCII (digitChar d.val) ≠ 'i' := by
  fin_cases d <;> decide

theorem special_digits (d : Fin 10) (rest : GoString) :
    special (digitChar d.val :: rest) = none := by
  obtain ⟨h1, h2, h3, h4, h5, h6, _⟩ := digitChar_head d
  simp [special, h1, h2, h3, h4, h5, h6]

theorem special_minus_digits (d : Fin 10) (rest : GoString) :
    special ('-' :: digitChar d.val :: rest) = none := by
  obtain ⟨_, _, _, _, _, _, h7⟩ := digitChar_head d
  simp [special, infLen, commonPrefixLenIgnoreCase, h7]

theorem Numeral.text_eq (n : Numeral) :
    n.text = (if n.neg then ['-'] else []) ++ n.body := by
  simp [Numeral.text, Numeral.body]

theorem spanDigits_body (n : Numeral) :
    spanDigits n.body = (digitChars n.int, if n.frac = [] then [] else '.' :: digitChars n.frac) := by
  unfold Numeral.body
  apply spanDigits_digitChars
  intro c r h
  split at h
  · cases h
  · injection h with h1 _
    rw [← h1]
    rfl

theorem fracDigits_tail (frac : List (Fin 10)) :
    fracDigits (if frac = [] then [] else '.' :: digitChars frac) = digitChars frac ∧
    afterFrac (if frac = [] then [] else '.' :: digitChars frac) = [] := by
  by_cases hf : frac = []
  · subst hf
    simp [fracDigits, afterFrac, digitChars]
  · have hs := spanDigits_digitChars frac [] (by intro c r h; cases h)
    rw [List.append_nil] at hs
    simp [hf, fracDigits, afterFrac, hs]

theorem readFloat_body (n : Numeral) (hint : n.int ≠ []) (s : GoString)
    (hdrop : dropSign s = n.body) :
    readFloat s =
      some (⟨hasMinus s, digitsNat (n.int ++ n.frac), -(n.frac.length : Int)⟩, []) := by
  unfold readFloat
  simp only [hdrop, spanDigits_body, (fracDigits_tail n.frac).1, (fracDigits_tail n.frac).2]
  have hne : ¬ (digitChars n.int = [] ∧ digitChars n.frac = []) := by
    intro h
    apply hint
    simpa [digitChars] using h.1
  rw [if_neg hne]
  simp [readExp, ← digitChars_append, digitsValue_digitChars, digitChars_length]

theorem readFloat_numeral (n : Numeral) (hint : n.int ≠ []) :
    readFloat n.text =
      some (⟨n.neg, digitsNat (n.int ++ n.frac), -(n.frac.length : Int)⟩, []) := by
  have hbody : ∃ d rest, n.body = digitChar (d : Fin 10).val :: rest := by
    obtain ⟨neg, int, frac⟩ := n
    cases int with
    | nil => exact absurd rfl hint
    | cons d ds => exact ⟨d, _, rfl⟩
  obtain ⟨d, rest, hb⟩ := hbody
  obtain ⟨h1, h2, _⟩ := digitChar_head d
  rw [Numeral.text_eq]
  cases hn : n.neg with
  | false =>
    have := readFloat_body n hint n.body (by rw [hb]; simp [dropSign, h1, h2])
    simp only [Bool.false_eq_true, if_false, List.nil_append]
    rw [this, hb]
    simp [hasMinus, h2]
  | true =>
    have := readFloat_body n hint ('-' :: n.body) (by simp [dropSign])
    simp only [if_true, List.singleton_append]
    rw [this]
    simp [hasMinus]

theorem special_numeral (n : Numeral) (hint : n.int ≠ []) : special n.text = none := by
  obtain ⟨neg, int, frac⟩ := n
  cases int with
  | nil => exact absurd rfl hint
  | cons d ds =>
    cases neg with
    | false => exact special_digits d _
    | true => exact special_minus_digits d _

/-- On the text of a decimal numeral, `ParseFloat` returns the `float64` nearest
to the number it denotes, with a range error when that is an infinity. -/
theorem ParseFloat_numeral (n : Numeral) (hint : n.int ≠ []) :
    ParseFloat n.text =
      ((roundFloat64 n.neg (digitsNat (n.int ++ n.frac)) (10 ^ n.frac.length)).1,
        if (roundFloat64 n.neg (digitsNat (n.int ++ n.frac)) (10 ^ n.frac.length)).2
        then some (GoError.numRange n.text) else none) := by
  unfold ParseFloat
  rw [special_numeral n hint, readFloat_numeral n hint]
  simp only [Decimal.round]
  by_cases hk : n.frac.length = 0
  · simp [hk]
  · have : ¬ (0 : Int) ≤ -(n.frac.length : Int) := by omega
    simp [this]

/-- On a text that begins with a quote, `ParseFloat` is a syntax error. -/
theorem ParseFloat_quoted (rest : GoString) :
    ParseFloat ('"' :: rest) = (Float64.zero, some (GoError.numSyntax ('"' :: rest))) := by
  simp [ParseFloat, special, readFloat, dropSign, spanDigits, isDigit, fracDigits]

/-! The balance query -/

/-- C2 (counterexample).  The node answers `getbalance` with the body
`{"id":1,"result":"2.50000000","error":null}`, resp. with the result `"1.5"`:
the result is a JSON string, the `json.RawMessage` holds its text with the
quotes, and `GetBalance` returns `0` and the syntax error of
`strconv.ParseFloat`, not `2.5`, resp. `1.5`, and a nil error. -/
theorem getBalance_string_result_is_error :
    ((New (servingEnv quotedBalanceBody)
        "127.0.0.1:8332".toList [] []).1.GetBalance
      (servingEnv quotedBalanceBody)
      "main".toList 6 World.init).1 =
      (Float64.zero, some (GoError.numSyntax "\"2.50000000\"".toList)) ∧
    ((New (servingEnv quotedBalanceBody2)
        "127.0.0.1:8332".toList [] []).1.GetBalance
      (servingEnv quotedBalanceBody2)
      "main".toList 6 World.init).1 =
      (Float64.zero, some (GoError.numSyntax "\"1.5\"".toList)) :=
  ⟨rfl, rfl⟩

/-- C2 (amended).  When the transport succeeds and the envelope has a null
`error`: if the `result` is a JSON number whose text is a decimal numeral
`[-]digits[.digits]` (such as `2.50000000` or `1.5`, without quotes),
`GetBalance` returns the `float64` nearest to the number `(-1)^neg * N / 10^k`
that the numeral denotes, with a nil error, or with a range error when that
`float64` is an infinity; if the `result` is a JSON string (it begins with a
quote), `GetBalance` returns `0` and a syntax error. -/
theorem getBalance_result (env : Env) (b : Bitcoind) (account : GoString) (minconf : Nat)
    (w : World) (rr : rpcResponse)
    (hcall : (b.client.call env account "getbalance".toList
      (some [Param.string "*".toList, Param.uint64 minconf]) w).1 = (rr, none))
    (herr : rr.Err = none) :
    (∀ n : Numeral, n.int ≠ [] → rr.Result = n.text →
      (b.GetBalance env account minconf w).1 =
        ((roundFloat64 n.neg (digitsNat (n.int ++ n.frac)) (10 ^ n.frac.length)).1,
          if (roundFloat64 n.neg (digitsNat (n.int ++ n.frac)) (10 ^ n.frac.length)).2
          then some (GoError.numRange n.text) else none)) ∧
    (∀ rest, rr.Result = '"' :: rest →
      (b.GetBalance env account minconf w).1 =
        (Float64.zero, some (GoError.numSyntax ('"' :: rest)))) := by
  have hrun : (b.GetBalance env account minconf w).1 = ParseFloat rr.Result := by
    unfold Bitcoind.GetBalance
    simp only [hcall, handleError, herr]
  constructor
  · intro n hint hres
    rw [hrun, hres]
    exact ParseFloat_numeral n hint
  · intro rest hres
    rw [hrun, hres]
    exact ParseFloat_quoted rest

/-- C2 (amended), at an instance: the node answers with the body
`{"id":1,"result":2.50000000,"error":null}`, and `GetBalance` returns the
`float64` `5629499534213120 * 2^-51`, which is `2.5`, the number that the
numeral `2.50000000` denotes. -/
theorem getBalance_result_witness :
    ((New (servingEnv numberBalanceBody)
        "127.0.0.1:8332".toList [] []).1.GetBalance
      (servingEnv numberBalanceBody)
      "main".toList 6 World.init).1 = (Float64.finite false 5629499534213120 (-51), none) ∧
    Float64.toRat (Float64.finite false 5629499534213120 (-51)) = some (5 / 2) ∧
    Numeral.value ⟨false, [2], [5, 0, 0, 0, 0, 0, 0, 0]⟩ = 5 / 2 := by
  refine ⟨?_, ?_, ?_⟩
  · have h := (getBalance_result
      (servingEnv numberBalanceBody)
      (New (servingEnv numberBalanceBody)
        "127.0.0.1:8332".toList [] []).1 "main".toList 6 World.init
      ⟨1, "2.50000000".toList, none⟩ rfl rfl).1 ⟨false, [2], [5, 0, 0, 0, 0, 0, 0, 0]⟩
      (by decide) rfl
    rw [h]
    rfl
  · simp only [Float64.toRat]
    norm_num
  · have h5 : ((5 : Fin 10) : ℕ) = 5 := rfl
    simp only [Numeral.value, digitsNat, List.cons_append, List.nil_append, List.foldl_cons,
      List.foldl_nil, List.length_cons, List.length_nil, h5]
    norm_num

/-! Values returned with an error -/

/-- C3 (counterexample).  The node answers `getbalance` with the result `1e400`:
`GetBalance` returns a non-nil range error together with `+Inf`, which is not
the zero value of `float64`.  The node answers `validateaddress` with the
result `{"isvalid":true,"address":5}`: `ValidateAddress` returns a non-nil type
error together with a struct whose `IsValid` is already set. -/
theorem error_with_nonzero_value :
    ((New (servingEnv hugeBalanceBody)
        "127.0.0.1:8332".toList [] []).1.GetBalance
      (servingEnv hugeBalanceBody)
      "main".toList 6 World.init).1 =
      (Float64.inf false, some (GoError.numRange "1e400".toList)) ∧
    ((New (servingEnv partialValidateBody)
        "127.0.0.1:8332".toList [] []).1.ValidateAddress
      (servingEnv partialValidateBody)
      "1A2b".toList World.init).1 =
      (⟨true, [], false, false, [], false, []⟩,
        some (GoError.jsonUnmarshalType "number".toList "string".toList)) := by
  constructor
  · decide!
  · rfl

theorem unmarshalString_error (data : GoString)
    (h : (unmarshalString data []).2 ≠ none) : (unmarshalString data []).1 = [] := by
  unfold unmarshalString at h ⊢
  split
  · rfl
  · rename_i v _
    cases v <;> simp_all [storeString]

theorem packFloat64_range (neg : Bool) (m : Nat) (e : Int)
    (h : (packFloat64 neg m e).2 = true) : (packFloat64 neg m e).1 = Float64.inf neg := by
  unfold packFloat64 at h ⊢
  by_cases hc : 971 < (if m = 2 ^ 53 then e + 1 else e)
  · rw [if_pos hc]
  · rw [if_neg hc] at h
    cases h

theorem roundFloat64_range (neg : Bool) (num den : Nat)
    (h : (roundFloat64 neg num den).2 = true) :
    (roundFloat64 neg num den).1 = Float64.inf neg := by
  unfold roundFloat64 at h ⊢
  by_cases h0 : num = 0
  · rw [if_pos h0] at h
    cases h
  · rw [if_neg h0] at h ⊢
    exact packFloat64_range _ _ _ h

theorem Decimal.round_range (d : Decimal) (h : d.round.2 = true) :
    d.round.1 = Float64.inf d.neg := by
  unfold Decimal.round at h ⊢
  by_cases h0 : 0 ≤ d.exp
  · rw [if_pos h0] at h ⊢
    exact roundFloat64_range _ _ _ h
  · rw [if_neg h0] at h ⊢
    exact roundFloat64_range _ _ _ h

theorem ParseFloat_error (s : GoString) (h : (ParseFloat s).2 ≠ none) :
    (ParseFloat s).1 = Float64.zero ∨ ∃ neg, (ParseFloat s).1 = Float64.inf neg := by
  unfold ParseFloat at h ⊢
  cases hsp : special s with
  | some p =>
    obtain ⟨f, n⟩ := p
    rw [hsp] at h
    simp only [] at h ⊢
    by_cases hn : n = s.length
    · rw [if_pos hn] at h
      exact absurd rfl h
    · rw [if_neg hn]
      exact Or.inl rfl
  | none =>
    rw [hsp] at h
    simp only [] at h ⊢
    cases hrf : readFloat s with
    | none => exact Or.inl rfl
    | some p =>
      obtain ⟨d, rest⟩ := p
      cases rest with
      | cons c r => exact Or.inl rfl
      | nil =>
        rw [hrf] at h
        simp only [] at h ⊢
        by_cases hr : d.round.2 = true
        · exact Or.inr ⟨d.neg, Decimal.round_range d hr⟩
        · rw [if_neg hr] at h
          exact absurd rfl h

/-- C3 (amended).  For every typed operation that returns a value with its
error and every transport outcome: when the transport call fails or the
envelope carries an RPC error, the operation returns that error and the zero
value of its type; otherwise it returns the value and the error that decoding
the envelope's result gives, so that with a nil error the value is the
decoding of the result.  A decoding error comes with what the decoder left in
the value: the empty string for the operations that return a string, `0` or an
infinity for `GetBalance`. -/
theorem value_and_error (D : Decls) (env : Env) (b : Bitcoind) (op : Op) (w : World)
    (hv : op.returnsValue = true) :
    (∀ e, handleError (op.transport env b w).1.2 (op.transport env b w).1.1 = some e →
      (op.run D env b w).1 = (op.zeroValue D, some e)) ∧
    (handleError (op.transport env b w).1.2 (op.transport env b w).1.1 = none →
      (op.run D env b w).1 = op.decode D (op.transport env b w).1.1.Result) ∧
    (∀ s, (op.run D env b w).1.1 = Value.string s → (op.run D env b w).1.2 ≠ none → s = []) ∧
    (∀ f, (op.run D env b w).1.1 = Value.float64 f → (op.run D env b w).1.2 ≠ none →
      f = Float64.zero ∨ ∃ neg, f = Float64.inf neg) := by
  have hu : op.usesHandleError = true := by
    cases op <;> simp_all [Op.returnsValue, Op.usesHandleError]
  have hrun := run_handled D env b op w hu
  refine ⟨?_, ?_, ?_, ?_⟩
  · intro e he
    rw [hrun, he]
  · intro he
    rw [hrun, he]
  · intro s hs herr
    rw [hrun] at hs herr
    cases hh : handleError (op.transport env b w).1.2 (op.transport env b w).1.1 with
    | some e =>
      rw [hh] at hs
      cases op <;> simp_all [Op.zeroValue, Op.returnsValue]
    | none =>
      rw [hh] at hs herr
      cases op <;> simp only [Op.decode, Op.returnsValue, Bool.false_eq_true] at hs herr hv <;>
        first
          | (injection hs with hs
             rw [← hs]
             exact unmarshalString_error _ herr)
          | cases hs
  · intro f hf herr
    rw [hrun] at hf herr
    cases hh : handleError (op.transport env b w).1.2 (op.transport env b w).1.1 with
    | some e =>
      rw [hh] at hf
      cases op <;> simp_all [Op.zeroValue, Op.returnsValue]
    | none =>
      rw [hh] at hf herr
      cases op <;> simp only [Op.decode, Op.returnsValue, Bool.false_eq_true] at hf herr hv <;>
        first
          | (injection hf with hf
             rw [← hf]
             exact ParseFloat_error _ herr)
          | cases hf

/-- C3 (amended), at an instance: `GetNewAddress` when the node reports the RPC
error `-4`. -/
theorem value_and_error_witness :
    ((Op.GetNewAddress "main".toList).run unitDecls
      (servingEnv newAddressErrorBody)
      (New (servingEnv newAddressErrorBody)
        "127.0.0.1:8332".toList [] []).1 World.init).1 =
      ((Op.GetNewAddress "main".toList).zeroValue unitDecls,
        some (GoError.rpc ⟨-4, "no keys".toList⟩)) :=
  (value_and_error unitDecls
    (servingEnv newAddressErrorBody)
    (New (servingEnv newAddressErrorBody)
      "127.0.0.1:8332".toList [] []).1 (Op.GetNewAddress "main".toList) World.init rfl).1
    (GoError.rpc ⟨-4, "no keys".toList⟩) rfl

/-! The status code -/

theorem redirects_unfollowed (env : Env) (first : Request) (left n : Nat)
    (reqMethod : GoString) (resp : Response) (h : followed reqMethod resp = false) :
    redirects env first left n reqMethod resp = Sum.inr resp := by
  unfold followed at h
  by_cases hr : (redirectBehavior reqMethod resp.StatusCode).2.1 = false
  · cases left <;> simp [redirects, hr]
  · have hr2 : (redirectBehavior reqMethod resp.StatusCode).2.1 = true := by
      cases hb : (redirectBehavior reqMethod resp.StatusCode).2.1
      · exact absurd hb hr
      · rfl
    rw [hr2] at h
    have hl : resp.Location = [] := by
      simpa using h
    cases left <;> simp [redirects, hl]

/-- A response is not followed when its status is none of 301, 302, 303, 307,
308, or when it has no `Location` header, whatever the method of the request. -/
theorem followed_false (reqMethod : GoString) (resp : Response)
    (h : (resp.StatusCode ≠ 301 ∧ resp.StatusCode ≠ 302 ∧ resp.StatusCode ≠ 303 ∧
        resp.StatusCode ≠ 307 ∧ resp.StatusCode ≠ 308) ∨ resp.Location = []) :
    followed reqMethod resp = false := by
  unfold followed
  rcases h with ⟨h1, h2, h3, h7, h8⟩ | hl
  · simp [redirectBehavior, h1, h2, h3, h7, h8]
  · simp [hl]

/-- The default client returns a response that it does not follow. -/
theorem DefaultClient_unfollowed (env : Env) (req : Request) (resp : Response)
    (h : env.roundTrip (wireRequest req) = Sum.inr resp)
    (hf : followed req.Method resp = false) : DefaultClient env req = Sum.inr resp := by
  unfold DefaultClient
  simp only [h]
  exact redirects_unfollowed env req 9 1 req.Method resp hf

/-- The outcome of `call` depends on its surroundings only through the clock
and `http.NewRequest`. -/
theorem call_env (env1 env2 : Env) (c : rpcClient) (account method : GoString)
    (params : Params) (w : World) (hnow : env1.now = env2.now)
    (hnew : env1.newRequestErr = env2.newRequestErr) :
    c.call env1 account method params w = c.call env2 account method params w := by
  unfold rpcClient.call
  rw [hnow, hnew]

/-- C9 (counterexample).  The network answers every request with the body
`{"result":1,"error":null}` and the header `Location: http://127.0.0.1:8332/`.
With the status 200 `call` returns the envelope and a nil error; with the status
302 and the same header and body, `http.DefaultClient` follows the redirect,
ten requests in all, and `call` returns the error of the redirect limit and no
envelope. -/
theorem followed_redirect_changes_outcome :
    ((New (answeringEnv 200 "http://127.0.0.1:8332/".toList okBody)
        "127.0.0.1:8332".toList [] []).1.client.call
      (answeringEnv 200 "http://127.0.0.1:8332/".toList okBody)
      [] "getpeerinfo".toList none World.init).1 = (⟨0, "1".toList, none⟩, none) ∧
    ((New (answeringEnv 302 "http://127.0.0.1:8332/".toList okBody)
        "127.0.0.1:8332".toList [] []).1.client.call
      (answeringEnv 302 "http://127.0.0.1:8332/".toList okBody)
      [] "getpeerinfo".toList none World.init).1 =
      (rpcResponse.zero, some GoError.redirectLimit) :=
  ⟨rfl, rfl⟩

/-- C9 (amended).  The outcome of `rpcClient.call` does not depend on the status
code of the response that the HTTP client returns to it: two clients whose
answers to every request agree in everything but the status code get the same
envelope and the same error, because `call` never reads the status and always
parses the body.  For `http.DefaultClient` this covers every response of the
network that the client does not follow as a redirect (a status other than
301, 302, 303, 307, 308, or a response without a `Location` header): two
networks whose answers agree in everything but such a status give the same
outcome. -/
theorem call_ignores_returned_status (env : Env) (account method : GoString)
    (params : Params) (w : World) :
    (∀ c1 c2 : rpcClient, c1.addr = c2.addr → c1.user = c2.user → c1.pswd = c2.pswd →
      (∀ req,
        Sum.map id (fun r : Response => (r.Body, r.ReadErr)) (c1.httpClient req) =
          Sum.map id (fun r : Response => (r.Body, r.ReadErr)) (c2.httpClient req)) →
      c1.call env account method params w = c2.call env account method params w) ∧
    (∀ (addr user pswd : GoString) (rt1 rt2 : Request → Sum GoError Response),
      (∀ req,
        Sum.map id (fun r : Response => (r.Body, r.ReadErr)) (rt1 req) =
          Sum.map id (fun r : Response => (r.Body, r.ReadErr)) (rt2 req)) →
      (∀ req resp, rt1 req = Sum.inr resp →
        (resp.StatusCode ≠ 301 ∧ resp.StatusCode ≠ 302 ∧ resp.StatusCode ≠ 303 ∧
          resp.StatusCode ≠ 307 ∧ resp.StatusCode ≠ 308) ∨ resp.Location = []) →
      (∀ req resp, rt2 req = Sum.inr resp →
        (resp.StatusCode ≠ 301 ∧ resp.StatusCode ≠ 302 ∧ resp.StatusCode ≠ 303 ∧
          resp.StatusCode ≠ 307 ∧ resp.StatusCode ≠ 308) ∨ resp.Location = []) →
      (New { env with roundTrip := rt1 } addr user pswd).1.client.call
          { env with roundTrip := rt1 } account method params w =
        (New { env with roundTrip := rt2 } addr user pswd).1.client.call
          { env with roundTrip := rt2 } account method params w) := by
  constructor
  · intro c1 c2 haddr huser hpswd hsame
    exact call_same_body env c1 c2 account method params w haddr huser hpswd hsame
  · intro addr user pswd rt1 rt2 hsame hf1 hf2
    rw [call_env { env with roundTrip := rt1 } env _ account method params w rfl rfl,
      call_env { env with roundTrip := rt2 } env _ account method params w rfl rfl]
    refine call_same_body env _ _ account method params w rfl rfl rfl ?_
    intro req
    have hs := hsame (wireRequest req)
    show Sum.map id (fun r : Response => (r.Body, r.ReadErr))
        (DefaultClient { env with roundTrip := rt1 } req) =
      Sum.map id (fun r : Response => (r.Body, r.ReadErr))
        (DefaultClient { env with roundTrip := rt2 } req)
    have key : ∀ (rt : Request → Sum GoError Response),
        (∀ req resp, rt req = Sum.inr resp →
          (resp.StatusCode ≠ 301 ∧ resp.StatusCode ≠ 302 ∧ resp.StatusCode ≠ 303 ∧
            resp.StatusCode ≠ 307 ∧ resp.StatusCode ≠ 308) ∨ resp.Location = []) →
        DefaultClient { env with roundTrip := rt } req = rt (wireRequest req) := by
      intro rt hf
      cases h : rt (wireRequest req) with
      | inl e =>
        unfold DefaultClient
        simp only [h]
      | inr resp =>
        exact DefaultClient_unfollowed { env with roundTrip := rt } req resp h
          (followed_false req.Method resp (hf _ resp h))
    rw [key rt1 hf1, key rt2 hf2]
    exact hs

/-- C9 (amended), at an instance: the body `{"result":1,"error":null}` with the
status codes 200 and 500 gives the same outcome, through a client that returns
these responses and through `http.DefaultClient` over a network that answers
with them. -/
theorem call_ignores_returned_status_witness :
    rpcClient.call (servingEnv okBody)
        ⟨"127.0.0.1:8332".toList, "u".toList, "p".toList, serve 200 okBody⟩
        [] "getpeerinfo".toList none World.init =
      rpcClient.call (servingEnv okBody)
        ⟨"127.0.0.1:8332".toList, "u".toList, "p".toList, serve 500 okBody⟩
        [] "getpeerinfo".toList none World.init ∧
    (New { servingEnv okBody with roundTrip := serve 200 okBody }
          "127.0.0.1:8332".toList "u".toList "p".toList).1.client.call
        { servingEnv okBody with roundTrip := serve 200 okBody }
        [] "getpeerinfo".toList none World.init =
      (New { servingEnv okBody with roundTrip := serve 500 okBody }
          "127.0.0.1:8332".toList "u".toList "p".toList).1.client.call
        { servingEnv okBody with roundTrip := serve 500 okBody }
        [] "getpeerinfo".toList none World.init :=
  ⟨(call_ignores_returned_status (servingEnv okBody) [] "getpeerinfo".toList none
      World.init).1
      ⟨"127.0.0.1:8332".toList, "u".toList, "p".toList, serve 200 okBody⟩
      ⟨"127.0.0.1:8332".toList, "u".toList, "p".toList, serve 500 okBody⟩
      rfl rfl rfl (fun _ => rfl),
    (call_ignores_returned_status (servingEnv okBody) [] "getpeerinfo".toList none
      World.init).2
      "127.0.0.1:8332".toList "u".toList "p".toList (serve 200 okBody) (serve 500 okBody)
      (fun _ => rfl)
      (fun _ resp h => Or.inl (by cases h; decide))
      (fun _ resp h => Or.inl (by cases h; decide))⟩

end bitcoind
